import Mathlib

/-!
# CPSW port PHY interface mode selection (drivers/phy/phy-gmii-sel.c)

A shallow embedding of the driver: the register-field tables, the per-port
contexts, `phy_gmii_sel_mode`, `phy_gmii_sel_of_xlate`,
`phy_gmii_sel_init_ports` and `phy_gmii_sel_probe`, followed by theorems
about them.

Conventions.
* `unsigned int` / `u32` values are `Nat` below `2 ^ 32`; `int` values are `Int`.
  `toU32` and `toS32` are the C conversions between the two.
* A function returns `none` when the C code would dereference a null pointer
  or index outside an array; `some r` carries the C return value and the
  state it leaves behind.
* The register map is a collaborator outside the file: it is a parameter
  (`Regmap`), and every call made to it is appended to a log kept next to its
  state (`Bus`).
-/

namespace PhyGmiiSel

/-! ## Machine integers -/

/-- Conversion of an `int` to `unsigned int` (reduction modulo `2 ^ 32`). -/
def toU32 (x : Int) : Nat := (x % 2 ^ 32).toNat

/-- Conversion of an `unsigned int` to `int` (two's complement). -/
def toS32 (n : Nat) : Int :=
  if n % 2 ^ 32 < 2 ^ 31 then ((n % 2 ^ 32 : Nat) : Int) else ((n % 2 ^ 32 : Nat) : Int) - 2 ^ 32

/-- The C expression `x << n` on an `int` `x`, passed as an `unsigned int`. -/
def shl32 (x : Int) (n : Nat) : Nat := toU32 (x * 2 ^ n)

/-- Modelled from the spec: the macro `BIT` lives in a header outside this
file; `BIT(n)` is `1 << n` as a 32-bit unsigned value. -/
def BIT (n : Nat) : Nat := (1 <<< n) % 2 ^ 32

/-- Modelled from the spec: the errno constants are declared in a header
outside this file.  `-EINVAL` is the outcome the spec calls `UnsupportedMode`
or `InvalidArguments`; 22 is its usual number. -/
def EINVAL : Int := 22

/-- Modelled from the spec: errno constant declared in a header outside this
file (usual number 19); the spec has no name for this outcome. -/
def ENODEV : Int := 19

/-- Modelled from the spec: errno constant declared in a header outside this
file (usual number 12), the failure of the port-array allocation. -/
def ENOMEM : Int := 12

/-! ## Constants of the file (lines 17-27) -/

def AM33XX_GMII_SEL_MODE_MII : Nat := 0
def AM33XX_GMII_SEL_MODE_RMII : Nat := 1
def AM33XX_GMII_SEL_MODE_RGMII : Nat := 2

def PHY_GMII_SEL_PORT_MODE : Nat := 0
def PHY_GMII_SEL_RGMII_ID_MODE : Nat := 1
def PHY_GMII_SEL_RMII_IO_CLK_EN : Nat := 2
def PHY_GMII_SEL_LAST : Nat := 3

/-- Modelled from the spec: the enumerators of `enum phy_mode` and of
`phy_interface_t` that the driver names are declared in headers outside this
file, so their integer values are parameters.  Enumerators used as labels of
one `switch` are pairwise distinct, which is the field `distinct`. -/
structure PhyEnums where
  PHY_MODE_ETHERNET : Int
  PHY_INTERFACE_MODE_MII : Int
  PHY_INTERFACE_MODE_RMII : Int
  PHY_INTERFACE_MODE_RGMII : Int
  PHY_INTERFACE_MODE_RGMII_ID : Int
  PHY_INTERFACE_MODE_RGMII_RXID : Int
  PHY_INTERFACE_MODE_RGMII_TXID : Int
  distinct : [PHY_INTERFACE_MODE_MII, PHY_INTERFACE_MODE_RMII, PHY_INTERFACE_MODE_RGMII,
    PHY_INTERFACE_MODE_RGMII_ID, PHY_INTERFACE_MODE_RGMII_RXID,
    PHY_INTERFACE_MODE_RGMII_TXID].Nodup

/-- The six submodes the `switch` of `phy_gmii_sel_mode` has a label for. -/
def PhyEnums.supported (K : PhyEnums) : List Int :=
  [K.PHY_INTERFACE_MODE_MII, K.PHY_INTERFACE_MODE_RMII, K.PHY_INTERFACE_MODE_RGMII,
    K.PHY_INTERFACE_MODE_RGMII_RXID, K.PHY_INTERFACE_MODE_RGMII_ID,
    K.PHY_INTERFACE_MODE_RGMII_TXID]

/-- One concrete choice of enumerator values, used to run the model. -/
def sampleEnums : PhyEnums :=
  ⟨5, 0, 6, 7, 8, 9, 10, by decide⟩

/-! ## Data model (lines 29-62) -/

/-- The `struct phy_gmii_sel_reg_field`. -/
structure phy_gmii_sel_reg_field where
  reg : Nat
  mask : Nat
  shift : Nat
deriving DecidableEq, Repr

/-- The initialiser macro `REG_FIELD(_reg, _mask, _shift)`: the arguments are
`int` constant expressions, stored into `unsigned int` members. -/
def REG_FIELD (reg mask : Int) (shift : Nat) : phy_gmii_sel_reg_field :=
  ⟨toU32 reg, toU32 (mask * 2 ^ shift), shift⟩

/-- The `struct phy_gmii_sel_phy_priv`.  The back pointer `priv` (set by
`phy_gmii_sel_init_ports` to the owning instance on every entry and never
changed) and the unused `if_phy` are not represented; `regfields` is the row
of the table the pointer designates (`[]` for a null pointer). -/
structure phy_gmii_sel_phy_priv where
  id : Nat
  rmii_clock_external : Int
  phy_if_mode : Int
  regfields : List phy_gmii_sel_reg_field
deriving DecidableEq, Repr

/-- The `struct phy_gmii_sel_soc_data`. -/
structure phy_gmii_sel_soc_data where
  num_ports : Nat
  features : Nat
  regfields : List (List phy_gmii_sel_reg_field)
deriving DecidableEq, Repr

/-- The `struct phy_gmii_sel_priv`; `if_phys = none` is the null pointer. -/
structure phy_gmii_sel_priv where
  soc_data : phy_gmii_sel_soc_data
  if_phys : Option (List phy_gmii_sel_phy_priv)
deriving DecidableEq, Repr

/-! ## The register map collaborator -/

/-- One call `regmap_update_bits(map, reg, mask, val)`. -/
structure RegWrite where
  reg : Nat
  mask : Nat
  val : Nat
deriving DecidableEq, Repr

/-- Modelled from the spec: the register map is implemented outside this
file.  It has a state `σ` and an `update_bits` operation returning the C
return value (0 on success) and the next state. -/
structure Regmap (σ : Type) where
  update_bits : σ → Nat → Nat → Nat → Int × σ

/-- The state of the register map together with the log of the calls issued
to it, oldest first, each with the value it returned. -/
structure Bus (σ : Type) where
  st : σ
  log : List (RegWrite × Int)

/-- A register map on which nothing has been logged yet. -/
def Bus.fresh {σ : Type} (s : σ) : Bus σ := ⟨s, []⟩

/-- The writes issued so far, oldest first. -/
def Bus.writes {σ : Type} (b : Bus σ) : List RegWrite := b.log.map Prod.fst

/-- The call `regmap_update_bits(priv->regmap, reg, mask, val)`: forwarded to
the collaborator and logged. -/
def regmap_update_bits {σ : Type} (rm : Regmap σ) (b : Bus σ) (reg mask val : Nat) :
    Int × Bus σ :=
  let r := rm.update_bits b.st reg mask val
  (r.1, ⟨r.2, b.log ++ [(⟨reg, mask, val⟩, r.1)]⟩)

/-- Modelled from the spec: the read-modify-write register map of the spec
(section 6).  The state maps a register offset to its 32-bit contents;
`update_bits` clears the bits covered by `mask`, sets them to the
corresponding bits of `val`, keeps the others, and succeeds. -/
def rmwRegmap : Regmap (Nat → Nat) :=
  ⟨fun regs reg mask val =>
    (0, fun a => if a = reg then (regs a &&& (0xFFFFFFFF ^^^ mask)) ||| (val &&& mask) else regs a)⟩

/-- A register map without contents whose `n`-th call (counting from 0) fails
with `e` and whose other calls succeed; the state counts the calls. -/
def failingRegmap (n : Nat) (e : Int) : Regmap Nat :=
  ⟨fun k _ _ _ => (if k = n then e else 0, k + 1)⟩

/-- A register map without contents on which every call succeeds. -/
def okRegmap : Regmap Unit :=
  ⟨fun _ _ _ _ => (0, ())⟩

/-! ## Static tables (lines 149-198, 288-306) -/

def phy_gmii_sel_fields_am33xx : List (List phy_gmii_sel_reg_field) :=
  [ [ REG_FIELD 0x650 0x3 0, REG_FIELD 0x650 0x1 4, REG_FIELD 0x650 0x1 6 ],
    [ REG_FIELD 0x650 0x3 2, REG_FIELD 0x650 0x1 5, REG_FIELD 0x650 0x1 7 ] ]

def phy_gmii_sel_soc_am33xx : phy_gmii_sel_soc_data :=
  ⟨2, BIT PHY_GMII_SEL_RGMII_ID_MODE ||| BIT PHY_GMII_SEL_RMII_IO_CLK_EN,
    phy_gmii_sel_fields_am33xx⟩

/-- The dra7 table; `(~0)` is the `int` value `-1`. -/
def phy_gmii_sel_fields_dra7 : List (List phy_gmii_sel_reg_field) :=
  [ [ REG_FIELD 0x554 0x3 0, REG_FIELD (-1) 0 0, REG_FIELD (-1) 0 0 ],
    [ REG_FIELD 0x554 0x3 4, REG_FIELD (-1) 0 0, REG_FIELD (-1) 0 0 ] ]

/-- The dra7 description; `features` is not initialised in the source, hence 0. -/
def phy_gmii_sel_soc_dra7 : phy_gmii_sel_soc_data :=
  ⟨2, 0, phy_gmii_sel_fields_dra7⟩

def phy_gmii_sel_soc_dm814 : phy_gmii_sel_soc_data :=
  ⟨2, BIT PHY_GMII_SEL_RGMII_ID_MODE, phy_gmii_sel_fields_am33xx⟩

/-- The match table: compatible string and the variant description it selects. -/
def phy_gmii_sel_id_table : List (String × phy_gmii_sel_soc_data) :=
  [ ("ti,am3352-phy-gmii-sel", phy_gmii_sel_soc_am33xx),
    ("ti,dra7xx-phy-gmii-sel", phy_gmii_sel_soc_dra7),
    ("ti,am43xx-phy-gmii-sel", phy_gmii_sel_soc_am33xx),
    ("ti,dm814-phy-gmii-sel", phy_gmii_sel_soc_dm814) ]

/-- The variants a driver instance can be bound to. -/
def variants : List phy_gmii_sel_soc_data := phy_gmii_sel_id_table.map Prod.snd

/-! ## phy_gmii_sel_mode (lines 64-147) -/

/-- The `switch (submode)` of lines 80-105: the values of the locals
`gmii_sel_mode` and `rgmii_id` after it, or `none` for the `default` label.
Both locals start at 0; the label for MII assigns to `mode` and not to
`gmii_sel_mode`, which keeps its initial value 0. -/
def phy_gmii_sel_switch (K : PhyEnums) (submode : Int) : Option (Nat × Int) :=
  if submode = K.PHY_INTERFACE_MODE_RMII then
    some (AM33XX_GMII_SEL_MODE_RMII, 0)
  else if submode = K.PHY_INTERFACE_MODE_RGMII ∨ submode = K.PHY_INTERFACE_MODE_RGMII_RXID then
    some (AM33XX_GMII_SEL_MODE_RGMII, 0)
  else if submode = K.PHY_INTERFACE_MODE_RGMII_ID ∨ submode = K.PHY_INTERFACE_MODE_RGMII_TXID then
    some (AM33XX_GMII_SEL_MODE_RGMII, 1)
  else if submode = K.PHY_INTERFACE_MODE_MII then
    some (0, 0)
  else
    none

/-- Lines 137-146: the optional write of the RMII_IO_CLK_EN field and the
final `return ret`, entered with the pair `r` of the current `ret` and bus. -/
def phy_gmii_sel_clk_write {σ : Type} (rm : Regmap σ) (features : Nat)
    (regfields : List phy_gmii_sel_reg_field) (rmii_clock_external : Int)
    (r : Int × Bus σ) : Option (Int × Bus σ) :=
  if features &&& BIT PHY_GMII_SEL_RMII_IO_CLK_EN ≠ 0 then
    match regfields[PHY_GMII_SEL_RMII_IO_CLK_EN]? with
    | none => none
    | some regfield =>
      some (regmap_update_bits rm r.2 regfield.reg regfield.mask
        (shl32 rmii_clock_external regfield.shift))
  else
    some r

/-- Lines 113-146: the register writes of `phy_gmii_sel_mode`, with the C
return value.  `gmii_sel_mode` is a `u32`, `rgmii_id` and
`rmii_clock_external` are `int`; each shifted value is passed as `uint`. -/
def phy_gmii_sel_writes {σ : Type} (rm : Regmap σ) (features : Nat)
    (regfields : List phy_gmii_sel_reg_field) (rmii_clock_external : Int)
    (gmii_sel_mode : Nat) (rgmii_id : Int) (bus : Bus σ) : Option (Int × Bus σ) :=
  match regfields[PHY_GMII_SEL_PORT_MODE]? with
  | none => none
  | some regfield =>
    let r1 := regmap_update_bits rm bus regfield.reg regfield.mask
      ((gmii_sel_mode <<< regfield.shift) % 2 ^ 32)
    if r1.1 ≠ 0 then
      some r1
    else if features &&& BIT PHY_GMII_SEL_RGMII_ID_MODE ≠ 0 then
      match regfields[PHY_GMII_SEL_RGMII_ID_MODE]? with
      | none => none
      | some regfield =>
        let r2 := regmap_update_bits rm r1.2 regfield.reg regfield.mask
          (shl32 rgmii_id regfield.shift)
        if r2.1 ≠ 0 then
          some r2
        else
          phy_gmii_sel_clk_write rm features regfields rmii_clock_external r2
    else
      phy_gmii_sel_clk_write rm features regfields rmii_clock_external r1

/-- What a call of `phy_gmii_sel_mode` leaves behind. -/
structure ModeResult (σ : Type) where
  ret : Int
  priv : phy_gmii_sel_priv
  bus : Bus σ

/-- The function `phy_gmii_sel_mode(phy, mode, submode)`; `phy_id` is
`phy->id` (an `unsigned long`, so that `phy->id - 1` at `phy->id = 0` is far
outside the array).  `if_phy->priv->soc_data` is `priv.soc_data`. -/
def phy_gmii_sel_mode {σ : Type} (K : PhyEnums) (rm : Regmap σ) (priv : phy_gmii_sel_priv)
    (bus : Bus σ) (phy_id : Nat) (mode submode : Int) : Option (ModeResult σ) :=
  if mode ≠ K.PHY_MODE_ETHERNET then
    some ⟨-EINVAL, priv, bus⟩
  else
    match priv.if_phys with
    | none => none
    | some if_phys =>
      if phy_id = 0 then none
      else
        match if_phys[phy_id - 1]? with
        | none => none
        | some if_phy =>
          match phy_gmii_sel_switch K submode with
          | none => some ⟨-EINVAL, priv, bus⟩
          | some (gmii_sel_mode, rgmii_id) =>
            let priv1 : phy_gmii_sel_priv :=
              ⟨priv.soc_data, some (if_phys.set (phy_id - 1)
                ⟨if_phy.id, if_phy.rmii_clock_external, submode, if_phy.regfields⟩)⟩
            match phy_gmii_sel_writes rm priv.soc_data.features if_phy.regfields
                if_phy.rmii_clock_external gmii_sel_mode rgmii_id bus with
            | none => none
            | some (ret, bus1) => some ⟨ret, priv1, bus1⟩

/-! ## phy_gmii_sel_of_xlate (lines 200-226) -/

/-- Modelled from the spec: the members of `struct ofnode_phandle_args`
(declared outside this file) that the driver reads: the `int` count and the
first two `u32` cells of the fixed-size array `args`. -/
structure ofnode_phandle_args where
  args_count : Int
  arg0 : Nat
  arg1 : Nat
deriving DecidableEq, Repr

/-- What a call of `phy_gmii_sel_of_xlate` leaves behind: return value,
driver instance and `phy->id`. -/
structure XlateResult where
  ret : Int
  priv : Option phy_gmii_sel_priv
  phy_id : Nat
deriving DecidableEq, Repr

/-- The function `phy_gmii_sel_of_xlate(phy, args)`.  `priv = none` is a null
`dev_get_priv`; `phy_id0` is `phy->id` on entry.  The local `phy_id` is an
`int`; it is compared with the `u32` members `num_ports` and `id` as
unsigned, and `if_phys[phy_id - 1]` is indexed with the signed value. -/
def phy_gmii_sel_of_xlate (priv : Option phy_gmii_sel_priv) (phy_id0 : Nat)
    (args : ofnode_phandle_args) : Option XlateResult :=
  let phy_id : Int := toS32 args.arg0
  if args.args_count < 1 then
    some ⟨-EINVAL, priv, phy_id0⟩
  else
    match priv with
    | none => some ⟨-ENODEV, priv, phy_id0⟩
    | some p =>
      match p.if_phys with
      | none => some ⟨-ENODEV, priv, phy_id0⟩
      | some if_phys =>
        if p.soc_data.features &&& BIT PHY_GMII_SEL_RMII_IO_CLK_EN ≠ 0 ∧ args.args_count < 2 then
          some ⟨-EINVAL, priv, phy_id0⟩
        else if toU32 phy_id > p.soc_data.num_ports then
          some ⟨-EINVAL, priv, phy_id0⟩
        else if phy_id - 1 < 0 then none
        else
          match if_phys[(phy_id - 1).toNat]? with
          | none => none
          | some e =>
            if toU32 phy_id ≠ e.id then
              some ⟨-EINVAL, priv, phy_id0⟩
            else
              let if_phys1 :=
                if p.soc_data.features &&& BIT PHY_GMII_SEL_RMII_IO_CLK_EN ≠ 0 then
                  if_phys.set (phy_id - 1).toNat
                    ⟨e.id, toS32 args.arg1, e.phy_if_mode, e.regfields⟩
                else if_phys
              match if_phys1[(phy_id - 1).toNat]? with
              | none => none
              | some e1 => some ⟨0, some ⟨p.soc_data, some if_phys1⟩, e1.id⟩

/-! ## phy_gmii_sel_init_ports (lines 228-256) -/

/-- The loop of lines 243-252 from index `i` on, with `n` iterations left. -/
def phy_gmii_sel_init_loop (soc_data : phy_gmii_sel_soc_data) :
    Nat → Nat → List phy_gmii_sel_phy_priv → Option (List phy_gmii_sel_phy_priv)
  | _, 0, if_phys => some if_phys
  | i, n + 1, if_phys =>
    match if_phys[i]?, soc_data.regfields[i]? with
    | some e, some row =>
      phy_gmii_sel_init_loop soc_data (i + 1) n
        (if_phys.set i ⟨toU32 (i + 1), e.rmii_clock_external, e.phy_if_mode, row⟩)
    | _, _ => none

/-- The function `phy_gmii_sel_init_ports(priv)`; `alloc_ok` tells whether
`devm_kcalloc` returns memory (zero-filled).  `num_ports` is an `int` local. -/
def phy_gmii_sel_init_ports (alloc_ok : Bool) (priv : phy_gmii_sel_priv) :
    Option (Int × phy_gmii_sel_priv) :=
  let num_ports : Int := toS32 priv.soc_data.num_ports
  if alloc_ok = false then
    some (-ENOMEM, priv)
  else
    match phy_gmii_sel_init_loop priv.soc_data 0 num_ports.toNat
        (List.replicate num_ports.toNat ⟨0, 0, 0, []⟩) with
    | none => none
    | some if_phys => some (0, ⟨priv.soc_data, some if_phys⟩)

/-! ## Driver states the statements range over -/

/-- A driver instance as `phy_gmii_sel_init_ports` sets it up and the two
operations keep it: the port array is present, has `num_ports` entries, and
entry `i` carries id `i + 1` and row `i` of the variant table.  The members
`rmii_clock_external` and `phy_if_mode` are free. -/
def ports_initialised (priv : phy_gmii_sel_priv) : Prop :=
  priv.if_phys.map List.length = some priv.soc_data.num_ports ∧
  ∀ i, i < priv.soc_data.num_ports →
    (priv.if_phys.bind (fun l => l[i]?)).map (fun e => e.id) = some (i + 1) ∧
    (priv.if_phys.bind (fun l => l[i]?)).map (fun e => e.regfields)
      = priv.soc_data.regfields[i]?

instance (priv : phy_gmii_sel_priv) : Decidable (ports_initialised priv) := by
  unfold ports_initialised; infer_instance

/-- The context of port `id` (1-based); a zero entry when there is none. -/
def port_ctx (priv : phy_gmii_sel_priv) (id : Nat) : phy_gmii_sel_phy_priv :=
  if id = 0 then ⟨0, 0, 0, []⟩ else ((priv.if_phys.getD [])[id - 1]?).getD ⟨0, 0, 0, []⟩

/-- The register field of kind `kind` of port `id` (1-based). -/
def port_field (priv : phy_gmii_sel_priv) (id kind : Nat) : phy_gmii_sel_reg_field :=
  ((port_ctx priv id).regfields[kind]?).getD ⟨0, 0, 0⟩

/-- The instance on variant `soc_data` right after a successful
`phy_gmii_sel_init_ports`; before it `if_phys` is null. -/
def initial_priv (soc_data : phy_gmii_sel_soc_data) : phy_gmii_sel_priv :=
  match phy_gmii_sel_init_ports true ⟨soc_data, none⟩ with
  | some (_, p) => p
  | none => ⟨soc_data, none⟩

/-- The value the register map returns for the write `w` issued in state `s`. -/
def Regmap.ret {σ : Type} (rm : Regmap σ) (s : σ) (w : RegWrite) : Int :=
  (rm.update_bits s w.reg w.mask w.val).1

/-- The state of the register map after the write `w` issued in state `s`. -/
def Regmap.next {σ : Type} (rm : Regmap σ) (s : σ) (w : RegWrite) : σ :=
  (rm.update_bits s w.reg w.mask w.val).2

/-- The write of mode code `code` to the PORT_MODE field of port `id`. -/
def port_mode_write (priv : phy_gmii_sel_priv) (id code : Nat) : RegWrite :=
  ⟨(port_field priv id PHY_GMII_SEL_PORT_MODE).reg,
    (port_field priv id PHY_GMII_SEL_PORT_MODE).mask,
    code <<< (port_field priv id PHY_GMII_SEL_PORT_MODE).shift⟩

/-- The write of the internal-delay flag to the RGMII_ID_MODE field of port `id`. -/
def rgmii_id_write (priv : phy_gmii_sel_priv) (id flag : Nat) : RegWrite :=
  ⟨(port_field priv id PHY_GMII_SEL_RGMII_ID_MODE).reg,
    (port_field priv id PHY_GMII_SEL_RGMII_ID_MODE).mask,
    flag <<< (port_field priv id PHY_GMII_SEL_RGMII_ID_MODE).shift⟩

/-- The write of the stored clock flag of port `id` to its RMII_IO_CLK_EN field. -/
def rmii_clk_write (priv : phy_gmii_sel_priv) (id : Nat) : RegWrite :=
  ⟨(port_field priv id PHY_GMII_SEL_RMII_IO_CLK_EN).reg,
    (port_field priv id PHY_GMII_SEL_RMII_IO_CLK_EN).mask,
    shl32 (port_ctx priv id).rmii_clock_external
      (port_field priv id PHY_GMII_SEL_RMII_IO_CLK_EN).shift⟩

/-- The register writes of the spec (section 4.2 steps 3 to 5) in their fixed
order, for a row `f0, f1, f2` of the field table: PORT_MODE always, then
RGMII_ID_MODE and RMII_IO_CLK_EN when the feature bit is set. -/
def spec_writes (features : Nat) (f0 f1 f2 : phy_gmii_sel_reg_field) (code : Nat)
    (flag clk : Int) : List RegWrite :=
  [⟨f0.reg, f0.mask, (code <<< f0.shift) % 2 ^ 32⟩]
    ++ (if features &&& BIT PHY_GMII_SEL_RGMII_ID_MODE ≠ 0 then
          [⟨f1.reg, f1.mask, shl32 flag f1.shift⟩] else [])
    ++ (if features &&& BIT PHY_GMII_SEL_RMII_IO_CLK_EN ≠ 0 then
          [⟨f2.reg, f2.mask, shl32 clk f2.shift⟩] else [])

/-- The fixed mapping table of the spec (section 4.2 step 1): submode, mode
code, internal-delay flag. -/
def spec_mode_table (K : PhyEnums) : List (Int × Nat × Nat) :=
  [ (K.PHY_INTERFACE_MODE_RMII, 1, 0),
    (K.PHY_INTERFACE_MODE_RGMII, 2, 0),
    (K.PHY_INTERFACE_MODE_RGMII_RXID, 2, 0),
    (K.PHY_INTERFACE_MODE_RGMII_ID, 2, 1),
    (K.PHY_INTERFACE_MODE_RGMII_TXID, 2, 1),
    (K.PHY_INTERFACE_MODE_MII, 0, 0) ]

/-- The `of_xlate` entry point seen together with the register map of the
instance: lines 200-226 hold no call to the register map, which is handed
back as it was. -/
def phy_gmii_sel_of_xlate_bus {σ : Type} (priv : Option phy_gmii_sel_priv) (bus : Bus σ)
    (phy_id0 : Nat) (args : ofnode_phandle_args) : Option (XlateResult × Bus σ) :=
  (phy_gmii_sel_of_xlate priv phy_id0 args).map (fun r => (r, bus))

/-! ## phy_gmii_sel_probe (lines 258-281) -/

/-- The function `phy_gmii_sel_probe(dev)`.  `priv0` is the instance memory on
entry and `data` the variant the match table selected; `syscon = some e` is an
error pointer from `syscon_node_to_regmap` with `PTR_ERR` value `e`, and
`syscon = none` a valid register map; `alloc_ok` is handed to
`phy_gmii_sel_init_ports`, whose return value `ret` is only logged. -/
def phy_gmii_sel_probe (priv0 : phy_gmii_sel_priv) (data : phy_gmii_sel_soc_data)
    (syscon : Option Int) (alloc_ok : Bool) : Option (Int × phy_gmii_sel_priv) :=
  let priv : phy_gmii_sel_priv := ⟨data, priv0.if_phys⟩
  match syscon with
  | some ret => some (ret, priv)
  | none =>
    match phy_gmii_sel_init_ports alloc_ok priv with
    | none => none
    | some (_, priv1) => some (0, priv1)

/-! ## Vocabulary of the statements about the tables -/

/-- The entry that marks an absent field: `REG_FIELD((~0), 0, 0)`. -/
def sentinel : phy_gmii_sel_reg_field := ⟨0xFFFFFFFF, 0, 0⟩

/-- The field of kind `kind` in row `i` (0-based) of the table of a variant;
the zero field when the table has no such entry. -/
def table_field (soc_data : phy_gmii_sel_soc_data) (i kind : Nat) : phy_gmii_sel_reg_field :=
  (((soc_data.regfields[i]?).getD [])[kind]?).getD ⟨0, 0, 0⟩

/-- The number of arguments `phy_gmii_sel_of_xlate` asks for on a variant. -/
def required_args (soc_data : phy_gmii_sel_soc_data) : Int :=
  if soc_data.features &&& BIT PHY_GMII_SEL_RMII_IO_CLK_EN ≠ 0 then 2 else 1

/-- The masks of the fields of a table that are not the sentinel, row by row. -/
def present_masks (soc_data : phy_gmii_sel_soc_data) : List Nat :=
  ((soc_data.regfields.flatten).filter (fun f => f ≠ sentinel)).map (fun f => f.mask)

end PhyGmiiSel

/-! ## Auxiliary facts -/

namespace PhyGmiiSel

theorem enums_distinct (K : PhyEnums) :
    K.PHY_INTERFACE_MODE_MII ≠ K.PHY_INTERFACE_MODE_RMII ∧
    K.PHY_INTERFACE_MODE_MII ≠ K.PHY_INTERFACE_MODE_RGMII ∧
    K.PHY_INTERFACE_MODE_MII ≠ K.PHY_INTERFACE_MODE_RGMII_ID ∧
    K.PHY_INTERFACE_MODE_MII ≠ K.PHY_INTERFACE_MODE_RGMII_RXID ∧
    K.PHY_INTERFACE_MODE_MII ≠ K.PHY_INTERFACE_MODE_RGMII_TXID ∧
    K.PHY_INTERFACE_MODE_RMII ≠ K.PHY_INTERFACE_MODE_RGMII ∧
    K.PHY_INTERFACE_MODE_RMII ≠ K.PHY_INTERFACE_MODE_RGMII_ID ∧
    K.PHY_INTERFACE_MODE_RMII ≠ K.PHY_INTERFACE_MODE_RGMII_RXID ∧
    K.PHY_INTERFACE_MODE_RMII ≠ K.PHY_INTERFACE_MODE_RGMII_TXID ∧
    K.PHY_INTERFACE_MODE_RGMII ≠ K.PHY_INTERFACE_MODE_RGMII_ID ∧
    K.PHY_INTERFACE_MODE_RGMII ≠ K.PHY_INTERFACE_MODE_RGMII_RXID ∧
    K.PHY_INTERFACE_MODE_RGMII ≠ K.PHY_INTERFACE_MODE_RGMII_TXID ∧
    K.PHY_INTERFACE_MODE_RGMII_ID ≠ K.PHY_INTERFACE_MODE_RGMII_RXID ∧
    K.PHY_INTERFACE_MODE_RGMII_ID ≠ K.PHY_INTERFACE_MODE_RGMII_TXID ∧
    K.PHY_INTERFACE_MODE_RGMII_RXID ≠ K.PHY_INTERFACE_MODE_RGMII_TXID := by
  have h := K.distinct
  simp only [List.nodup_cons, List.mem_cons, List.mem_singleton, not_or, List.not_mem_nil,
    not_false_eq_true, List.nodup_nil, and_true] at h
  tauto

/-- On a row of the mapping table the `switch` yields the row's code and flag. -/
theorem switch_of_table (K : PhyEnums) {submode : Int} {code flag : Nat}
    (h : (submode, code, flag) ∈ spec_mode_table K) :
    phy_gmii_sel_switch K submode = some (code, (flag : Int)) := by
  obtain ⟨d01, d02, d03, d04, d05, d12, d13, d14, d15, d23, d24, d25, d34, d35, d45⟩ :=
    enums_distinct K
  simp only [spec_mode_table, List.mem_cons, List.mem_singleton, Prod.mk.injEq,
    List.not_mem_nil, or_false] at h
  rcases h with h | h | h | h | h | h <;> obtain ⟨rfl, rfl, rfl⟩ := h <;>
  simp [phy_gmii_sel_switch, AM33XX_GMII_SEL_MODE_RMII, AM33XX_GMII_SEL_MODE_RGMII, *, Ne.symm, eq_comm]

/-- Every supported submode has a row in the mapping table. -/
theorem table_of_supported (K : PhyEnums) {submode : Int} (h : submode ∈ K.supported) :
    ∃ code flag, (submode, code, flag) ∈ spec_mode_table K := by
  simp only [PhyEnums.supported, List.mem_cons, List.mem_singleton, List.not_mem_nil,
    or_false] at h
  rcases h with rfl | rfl | rfl | rfl | rfl | rfl
  · exact ⟨0, 0, by simp [spec_mode_table]⟩
  · exact ⟨1, 0, by simp [spec_mode_table]⟩
  · exact ⟨2, 0, by simp [spec_mode_table]⟩
  · exact ⟨2, 0, by simp [spec_mode_table]⟩
  · exact ⟨2, 1, by simp [spec_mode_table]⟩
  · exact ⟨2, 1, by simp [spec_mode_table]⟩

/-- Outside the six supported submodes the `switch` takes the `default` label. -/
theorem switch_of_unsupported (K : PhyEnums) {submode : Int} (h : submode ∉ K.supported) :
    phy_gmii_sel_switch K submode = none := by
  simp only [PhyEnums.supported, List.mem_cons, List.mem_singleton, List.not_mem_nil,
    or_false, not_or] at h
  obtain ⟨h1, h2, h3, h4, h5, h6⟩ := h
  simp [phy_gmii_sel_switch, *]

/-- The context of an in-range port of an initialised instance. -/
theorem ctx_of_initialised {priv : phy_gmii_sel_priv} (hinit : ports_initialised priv)
    {id : Nat} (h1 : 1 ≤ id) (h2 : id ≤ priv.soc_data.num_ports) :
    ∃ l e row, priv.if_phys = some l ∧ l[id - 1]? = some e ∧ e.id = id ∧
      e.regfields = row ∧ priv.soc_data.regfields[id - 1]? = some row ∧
      l.length = priv.soc_data.num_ports := by
  obtain ⟨hlen, hall⟩ := hinit
  have h := hall (id - 1) (by omega)
  cases hl : priv.if_phys with
  | none => simp [hl] at hlen
  | some l =>
    simp only [hl, Option.map_some', Option.some.injEq, Option.some_bind] at hlen h
    cases he : l[id - 1]? with
    | none => simp [he] at h
    | some e =>
      simp only [he, Option.map_some', Option.some.injEq] at h
      refine ⟨l, e, e.regfields, rfl, he, ?_, rfl, h.2.symm, hlen⟩
      omega

/-- The rows of the tables of the known variants. -/
theorem variant_row {soc : phy_gmii_sel_soc_data} (hv : soc ∈ variants) {i : Nat}
    (hi : i < soc.num_ports) {row : List phy_gmii_sel_reg_field}
    (hrow : soc.regfields[i]? = some row) :
    (soc = phy_gmii_sel_soc_am33xx ∧ i = 0 ∧ row = [⟨0x650, 0x3, 0⟩, ⟨0x650, 0x10, 4⟩, ⟨0x650, 0x40, 6⟩]) ∨
    (soc = phy_gmii_sel_soc_am33xx ∧ i = 1 ∧ row = [⟨0x650, 0xC, 2⟩, ⟨0x650, 0x20, 5⟩, ⟨0x650, 0x80, 7⟩]) ∨
    (soc = phy_gmii_sel_soc_dra7 ∧ i = 0 ∧ row = [⟨0x554, 0x3, 0⟩, ⟨0xFFFFFFFF, 0, 0⟩, ⟨0xFFFFFFFF, 0, 0⟩]) ∨
    (soc = phy_gmii_sel_soc_dra7 ∧ i = 1 ∧ row = [⟨0x554, 0x30, 4⟩, ⟨0xFFFFFFFF, 0, 0⟩, ⟨0xFFFFFFFF, 0, 0⟩]) ∨
    (soc = phy_gmii_sel_soc_dm814 ∧ i = 0 ∧ row = [⟨0x650, 0x3, 0⟩, ⟨0x650, 0x10, 4⟩, ⟨0x650, 0x40, 6⟩]) ∨
    (soc = phy_gmii_sel_soc_dm814 ∧ i = 1 ∧ row = [⟨0x650, 0xC, 2⟩, ⟨0x650, 0x20, 5⟩, ⟨0x650, 0x80, 7⟩]) := by
  simp only [variants, phy_gmii_sel_id_table, List.map_cons, List.map_nil, List.mem_cons,
    List.mem_singleton, List.not_mem_nil, or_false] at hv
  rcases hv with rfl | rfl | rfl | rfl <;>
  · have hi2 : i < 2 := hi
    interval_cases i <;> 
    · have := hrow.symm
      simp only [phy_gmii_sel_soc_am33xx, phy_gmii_sel_soc_dra7, phy_gmii_sel_soc_dm814,
        phy_gmii_sel_fields_am33xx, phy_gmii_sel_fields_dra7, List.getElem?_cons_zero,
        List.getElem?_cons_succ, Option.some.injEq] at this
      subst this
      decide

/-- On a supported submode and an existing port `phy_gmii_sel_mode` records
the submode and performs the register writes. -/
theorem mode_eval {σ : Type} (K : PhyEnums) (rm : Regmap σ) {priv : phy_gmii_sel_priv}
    {l : List phy_gmii_sel_phy_priv} {e : phy_gmii_sel_phy_priv}
    (hl : priv.if_phys = some l) {id : Nat} (h1 : 1 ≤ id) (he : l[id - 1]? = some e)
    {submode : Int} {code flag : Nat} (ht : (submode, code, flag) ∈ spec_mode_table K)
    (bus : Bus σ) :
    phy_gmii_sel_mode K rm priv bus id K.PHY_MODE_ETHERNET submode =
      (phy_gmii_sel_writes rm priv.soc_data.features e.regfields e.rmii_clock_external
          code flag bus).map
        (fun r => ⟨r.1, ⟨priv.soc_data, some (l.set (id - 1)
          ⟨e.id, e.rmii_clock_external, submode, e.regfields⟩)⟩, r.2⟩) := by
  have hid : id ≠ 0 := by omega
  simp only [phy_gmii_sel_mode, hl, he, switch_of_table K ht, hid, ne_eq, not_true_eq_false,
    if_false]
  cases phy_gmii_sel_writes rm priv.soc_data.features e.regfields e.rmii_clock_external
      code flag bus <;> rfl

theorem port_ctx_eq {priv : phy_gmii_sel_priv} {l : List phy_gmii_sel_phy_priv}
    {e : phy_gmii_sel_phy_priv} (hl : priv.if_phys = some l) {id : Nat} (h1 : 1 ≤ id)
    (he : l[id - 1]? = some e) : port_ctx priv id = e := by
  have hid : id ≠ 0 := by omega
  simp [port_ctx, hl, he, hid]

/-- When every call to the register map succeeds, exactly the writes of
`spec_writes` are issued, in order, and 0 is returned. -/
theorem writes_all_ok {σ : Type} (rm : Regmap σ)
    (hok : ∀ s reg mask val, (rm.update_bits s reg mask val).1 = 0)
    (features : Nat) (f0 f1 f2 : phy_gmii_sel_reg_field) (clk : Int) (code : Nat) (flag : Int)
    (bus : Bus σ) :
    ∃ r, phy_gmii_sel_writes rm features [f0, f1, f2] clk code flag bus = some r ∧ r.1 = 0 ∧
      r.2.writes = bus.writes ++ spec_writes features f0 f1 f2 code flag clk := by
  by_cases hA : features &&& BIT 1 = 0 <;>
  by_cases hB : features &&& BIT 2 = 0 <;>
  simp [phy_gmii_sel_writes, phy_gmii_sel_clk_write, regmap_update_bits, spec_writes,
    Bus.writes, hok, hA, hB, PHY_GMII_SEL_PORT_MODE, PHY_GMII_SEL_RGMII_ID_MODE,
    PHY_GMII_SEL_RMII_IO_CLK_EN]

/-- Whatever the register map answers, `phy_gmii_sel_writes` returns, and
every write it issues is one of `spec_writes`. -/
theorem writes_subset {σ : Type} (rm : Regmap σ)
    (features : Nat) (f0 f1 f2 : phy_gmii_sel_reg_field) (clk : Int) (code : Nat) (flag : Int)
    (bus : Bus σ) :
    ∃ r, phy_gmii_sel_writes rm features [f0, f1, f2] clk code flag bus = some r ∧
      ∀ w ∈ r.2.writes, w ∈ bus.writes ++ spec_writes features f0 f1 f2 code flag clk := by
  simp only [phy_gmii_sel_writes, phy_gmii_sel_clk_write, regmap_update_bits, spec_writes,
    Bus.writes, PHY_GMII_SEL_PORT_MODE, PHY_GMII_SEL_RGMII_ID_MODE,
    PHY_GMII_SEL_RMII_IO_CLK_EN, List.getElem?_cons_zero, List.getElem?_cons_succ]
  split_ifs <;> simp <;> tauto

/-- The outcome of `phy_gmii_sel_mode` on an existing port whose row is
`f0, f1, f2`, for a supported submode, when every register write succeeds. -/
theorem mode_all_ok {σ : Type} (K : PhyEnums) (rm : Regmap σ)
    (hok : ∀ s reg mask val, (rm.update_bits s reg mask val).1 = 0)
    {priv : phy_gmii_sel_priv} {l : List phy_gmii_sel_phy_priv} {e : phy_gmii_sel_phy_priv}
    (hl : priv.if_phys = some l) {id : Nat} (h1 : 1 ≤ id) (he : l[id - 1]? = some e)
    {f0 f1 f2 : phy_gmii_sel_reg_field} (hrow : e.regfields = [f0, f1, f2])
    {submode : Int} {code flag : Nat} (ht : (submode, code, flag) ∈ spec_mode_table K)
    (bus : Bus σ) :
    ∃ res, phy_gmii_sel_mode K rm priv bus id K.PHY_MODE_ETHERNET submode = some res ∧
      res.ret = 0 ∧
      res.priv = ⟨priv.soc_data, some (l.set (id - 1)
          ⟨e.id, e.rmii_clock_external, submode, e.regfields⟩)⟩ ∧
      res.bus.writes = bus.writes ++
        spec_writes priv.soc_data.features f0 f1 f2 code flag e.rmii_clock_external := by
  obtain ⟨r, hr1, hr2, hr3⟩ := writes_all_ok rm hok priv.soc_data.features f0 f1 f2
    e.rmii_clock_external code flag bus
  rw [mode_eval K rm hl h1 he ht, hrow, hr1]
  exact ⟨_, rfl, hr2, rfl, hr3⟩

theorem port_field_eq {priv : phy_gmii_sel_priv} {l : List phy_gmii_sel_phy_priv}
    {e : phy_gmii_sel_phy_priv} (hl : priv.if_phys = some l) {id : Nat} (h1 : 1 ≤ id)
    (he : l[id - 1]? = some e) (kind : Nat) :
    port_field priv id kind = (e.regfields[kind]?).getD ⟨0, 0, 0⟩ := by
  simp [port_field, port_ctx_eq hl h1 he]

theorem shl_small (c n : Nat) (hc : c ≤ 2) (hn : n ≤ 7) : (c <<< n) % 2 ^ 32 = c <<< n := by
  interval_cases c <;> interval_cases n <;> rfl

theorem shl32_small (f n : Nat) (hf : f ≤ 1) (hn : n ≤ 7) : shl32 (f : Int) n = f <<< n := by
  interval_cases f <;> interval_cases n <;> rfl

theorem table_bounds (K : PhyEnums) {submode : Int} {code flag : Nat}
    (h : (submode, code, flag) ∈ spec_mode_table K) : code ≤ 2 ∧ flag ≤ 1 := by
  simp only [spec_mode_table, List.mem_cons, List.mem_singleton, Prod.mk.injEq,
    List.not_mem_nil, or_false] at h
  rcases h with h | h | h | h | h | h <;> obtain ⟨-, rfl, rfl⟩ := h <;> omega

theorem am33xx_rgmii_id : phy_gmii_sel_soc_am33xx.features &&& BIT 1 ≠ 0 := by decide

theorem am33xx_rmii_clk : phy_gmii_sel_soc_am33xx.features &&& BIT 2 ≠ 0 := by decide

theorem dra7_rgmii_id : phy_gmii_sel_soc_dra7.features &&& BIT 1 = 0 := by decide

theorem dra7_rmii_clk : phy_gmii_sel_soc_dra7.features &&& BIT 2 = 0 := by decide

theorem dm814_rgmii_id : phy_gmii_sel_soc_dm814.features &&& BIT 1 ≠ 0 := by decide

theorem dm814_rmii_clk : phy_gmii_sel_soc_dm814.features &&& BIT 2 = 0 := by decide

/-- How `phy_gmii_sel_writes` reacts to the values the register map returns,
for the three writes `w0`, `w1`, `w2` of a row. -/
theorem writes_failure {σ : Type} (rm : Regmap σ)
    (features : Nat) (f0 f1 f2 : phy_gmii_sel_reg_field) (clk : Int) (code : Nat) (flag : Int)
    (s : σ) (w0 w1 w2 : RegWrite)
    (hw0 : w0 = ⟨f0.reg, f0.mask, (code <<< f0.shift) % 2 ^ 32⟩)
    (hw1 : w1 = ⟨f1.reg, f1.mask, shl32 flag f1.shift⟩)
    (hw2 : w2 = ⟨f2.reg, f2.mask, shl32 clk f2.shift⟩) :
    ∃ r, phy_gmii_sel_writes rm features [f0, f1, f2] clk code flag (Bus.fresh s) = some r ∧
      (rm.ret s w0 ≠ 0 → r.1 = rm.ret s w0 ∧ r.2.writes = [w0]) ∧
      (rm.ret s w0 = 0 → features &&& BIT 1 ≠ 0 → rm.ret (rm.next s w0) w1 ≠ 0 →
        r.1 = rm.ret (rm.next s w0) w1 ∧ r.2.writes = [w0, w1]) ∧
      (rm.ret s w0 = 0 → features &&& BIT 1 ≠ 0 → rm.ret (rm.next s w0) w1 = 0 →
        features &&& BIT 2 ≠ 0 →
        r.1 = rm.ret (rm.next (rm.next s w0) w1) w2 ∧ r.2.writes = [w0, w1, w2]) ∧
      (rm.ret s w0 = 0 → features &&& BIT 1 = 0 → features &&& BIT 2 ≠ 0 →
        r.1 = rm.ret (rm.next s w0) w2 ∧ r.2.writes = [w0, w2]) ∧
      (r.1 = 0 → ∀ c ∈ r.2.log, c.2 = 0) := by
  subst hw0 hw1 hw2
  simp only [phy_gmii_sel_writes, phy_gmii_sel_clk_write, regmap_update_bits,
    Bus.writes, Bus.fresh, Regmap.ret, Regmap.next, PHY_GMII_SEL_PORT_MODE,
    PHY_GMII_SEL_RGMII_ID_MODE, PHY_GMII_SEL_RMII_IO_CLK_EN, List.getElem?_cons_zero,
    List.getElem?_cons_succ]
  split_ifs <;> simp_all <;> (intros; tauto)

/-- The context and the three fields of an in-range port of an initialised
instance of a known variant: shifts are at most 7, the PORT_MODE field is
present, and so is each optional field whose feature bit is set. -/
theorem port_row {priv : phy_gmii_sel_priv} (hv : priv.soc_data ∈ variants)
    (hinit : ports_initialised priv) {id : Nat} (h1 : 1 ≤ id)
    (h2 : id ≤ priv.soc_data.num_ports) :
    ∃ l e f0 f1 f2, priv.if_phys = some l ∧ l[id - 1]? = some e ∧ e.regfields = [f0, f1, f2] ∧
      port_ctx priv id = e ∧
      port_field priv id PHY_GMII_SEL_PORT_MODE = f0 ∧
      port_field priv id PHY_GMII_SEL_RGMII_ID_MODE = f1 ∧
      port_field priv id PHY_GMII_SEL_RMII_IO_CLK_EN = f2 ∧
      (f0.shift ≤ 7 ∧ f1.shift ≤ 7 ∧ f2.shift ≤ 7) ∧
      (f0.reg ≠ 0xFFFFFFFF ∧ f0.mask ≠ 0) ∧
      (priv.soc_data.features &&& BIT 1 ≠ 0 → f1.reg ≠ 0xFFFFFFFF ∧ f1.mask ≠ 0) ∧
      (priv.soc_data.features &&& BIT 2 ≠ 0 → f2.reg ≠ 0xFFFFFFFF ∧ f2.mask ≠ 0) ∧
      (priv.soc_data = phy_gmii_sel_soc_dra7 → f1.reg = 0xFFFFFFFF) := by
  obtain ⟨l, e, row, hl, he, -, hrow, hsoc, -⟩ := ctx_of_initialised hinit h1 h2
  rcases variant_row hv (by omega) hsoc with h | h | h | h | h | h <;>
  · obtain ⟨hs1, -, hr⟩ := h
    subst hr
    refine ⟨l, e, _, _, _, hl, he, hrow, port_ctx_eq hl h1 he, ?_, ?_, ?_, ?_, ?_, ?_, ?_, ?_⟩
    · simp [port_field_eq hl h1 he, hrow, PHY_GMII_SEL_PORT_MODE]
    · simp [port_field_eq hl h1 he, hrow, PHY_GMII_SEL_RGMII_ID_MODE]
    · simp [port_field_eq hl h1 he, hrow, PHY_GMII_SEL_RMII_IO_CLK_EN]
    · decide
    · decide
    · rw [hs1]; decide
    · rw [hs1]; decide
    · rw [hs1]; decide

/-- Without optional features exactly the PORT_MODE write is issued, whatever
the register map answers, and its answer is the return value. -/
theorem writes_no_features {σ : Type} (rm : Regmap σ) (features : Nat)
    (hA : features &&& BIT 1 = 0) (hB : features &&& BIT 2 = 0)
    (f0 f1 f2 : phy_gmii_sel_reg_field) (clk : Int) (code : Nat) (flag : Int) (bus : Bus σ) :
    ∃ r, phy_gmii_sel_writes rm features [f0, f1, f2] clk code flag bus = some r ∧
      r.1 = rm.ret bus.st ⟨f0.reg, f0.mask, (code <<< f0.shift) % 2 ^ 32⟩ ∧
      r.2.writes = bus.writes ++ [⟨f0.reg, f0.mask, (code <<< f0.shift) % 2 ^ 32⟩] := by
  simp only [phy_gmii_sel_writes, phy_gmii_sel_clk_write, regmap_update_bits,
    Bus.writes, Regmap.ret, PHY_GMII_SEL_PORT_MODE, PHY_GMII_SEL_RGMII_ID_MODE,
    PHY_GMII_SEL_RMII_IO_CLK_EN, List.getElem?_cons_zero, hA, hB]
  split_ifs <;> simp_all

/-- When every call succeeds, the state of the register map after
`phy_gmii_sel_mode` is the one reached by the writes of `spec_writes`. -/
theorem mode_all_ok_state {σ : Type} (K : PhyEnums) (rm : Regmap σ)
    (hok : ∀ s reg mask val, (rm.update_bits s reg mask val).1 = 0)
    {priv : phy_gmii_sel_priv} {l : List phy_gmii_sel_phy_priv} {e : phy_gmii_sel_phy_priv}
    (hl : priv.if_phys = some l) {id : Nat} (h1 : 1 ≤ id) (he : l[id - 1]? = some e)
    {f0 f1 f2 : phy_gmii_sel_reg_field} (hrow : e.regfields = [f0, f1, f2])
    {submode : Int} {code flag : Nat} (ht : (submode, code, flag) ∈ spec_mode_table K)
    (bus : Bus σ) :
    ∃ res, phy_gmii_sel_mode K rm priv bus id K.PHY_MODE_ETHERNET submode = some res ∧
      res.ret = 0 ∧
      res.priv = ⟨priv.soc_data, some (l.set (id - 1)
          ⟨e.id, e.rmii_clock_external, submode, e.regfields⟩)⟩ ∧
      res.bus.st = (spec_writes priv.soc_data.features f0 f1 f2 code flag
          e.rmii_clock_external).foldl rm.next bus.st := by
  rw [mode_eval K rm hl h1 he ht, hrow]
  by_cases hA : priv.soc_data.features &&& BIT 1 = 0 <;>
  by_cases hB : priv.soc_data.features &&& BIT 2 = 0 <;>
  simp [phy_gmii_sel_writes, phy_gmii_sel_clk_write, regmap_update_bits, spec_writes,
    Regmap.next, hok, hA, hB, PHY_GMII_SEL_PORT_MODE, PHY_GMII_SEL_RGMII_ID_MODE,
    PHY_GMII_SEL_RMII_IO_CLK_EN]

/-- One bit of a register after a read-modify-write: the old bit, masked and
then or-ed with bits that depend on the write only. -/
theorem rmw_bit (w : RegWrite) (a i : Nat) :
    ∃ p q : Bool, ∀ regs : Nat → Nat,
      (rmwRegmap.next regs w a).testBit i = ((regs a).testBit i && p || q) := by
  by_cases h : a = w.reg
  · refine ⟨(0xFFFFFFFF ^^^ w.mask).testBit i, (w.val &&& w.mask).testBit i, ?_⟩
    intro regs
    simp [Regmap.next, rmwRegmap, h]
  · refine ⟨true, false, ?_⟩
    intro regs
    simp [Regmap.next, rmwRegmap, h]

/-- One bit of a register after a sequence of read-modify-writes. -/
theorem rmw_bits (ws : List RegWrite) (a i : Nat) :
    ∃ p q : Bool, ∀ regs : Nat → Nat,
      (ws.foldl rmwRegmap.next regs a).testBit i = ((regs a).testBit i && p || q) := by
  induction ws with
  | nil => exact ⟨true, false, fun regs => by simp⟩
  | cons w ws ih =>
    obtain ⟨p1, q1, h1⟩ := rmw_bit w a i
    obtain ⟨p2, q2, h2⟩ := ih
    refine ⟨p1 && p2, (q1 && p2) || q2, ?_⟩
    intro regs
    rw [List.foldl_cons, h2, h1]
    cases (regs a).testBit i <;> cases p1 <;> cases p2 <;> cases q1 <;> cases q2 <;> rfl

/-- Replaying a sequence of read-modify-writes does not change the registers. -/
theorem rmw_replay (ws : List RegWrite) (regs : Nat → Nat) :
    ws.foldl rmwRegmap.next (ws.foldl rmwRegmap.next regs) = ws.foldl rmwRegmap.next regs := by
  funext a
  apply Nat.eq_of_testBit_eq
  intro i
  obtain ⟨p, q, h⟩ := rmw_bits ws a i
  rw [h, h]
  cases (regs a).testBit i <;> cases p <;> cases q <;> rfl

/-- An initialised instance of a known variant has exactly two port
contexts, with ids 1 and 2. -/
theorem initialised_two {priv : phy_gmii_sel_priv} (hv : priv.soc_data ∈ variants)
    (hinit : ports_initialised priv) :
    priv.soc_data.num_ports = 2 ∧
    ∃ x y, priv.if_phys = some [x, y] ∧ x.id = 1 ∧ y.id = 2 := by
  have hn : priv.soc_data.num_ports = 2 := by
    simp only [variants, phy_gmii_sel_id_table, List.map_cons, List.map_nil, List.mem_cons,
      List.mem_singleton, List.not_mem_nil, or_false] at hv
    rcases hv with h | h | h | h <;> rw [h] <;> rfl
  refine ⟨hn, ?_⟩
  obtain ⟨l, e1, -, hl, he1, hid1, -, -, hlen⟩ :=
    ctx_of_initialised hinit (le_refl 1) (by omega : 1 ≤ priv.soc_data.num_ports)
  obtain ⟨l2, e2, -, hl2, he2, hid2, -, -, -⟩ :=
    ctx_of_initialised hinit (by omega : 1 ≤ 2) (by omega : 2 ≤ priv.soc_data.num_ports)
  rw [hl] at hl2
  cases hl2
  rw [hn] at hlen
  match l, hlen, he1, he2 with
  | [a, b], _, he1, he2 =>
    simp only [Nat.sub_self, List.getElem?_cons_zero, Option.some.injEq] at he1
    simp only [Nat.add_one_sub_one, List.getElem?_cons_succ, List.getElem?_cons_zero,
      Option.some.injEq] at he2
    subst he1 he2
    exact ⟨a, b, hl, hid1, hid2⟩

/-! ## Mode selection -/

/-- C1: on every variant, every port and every supported submode, with the
Ethernet PHY mode and a register map whose writes succeed,
`phy_gmii_sel_mode` issues exactly one write to the PORT_MODE field of the
port, and it is `update_bits(field.reg, field.mask, code << field.shift)` with
code 0 for MII, 1 for RMII and 2 for the four RGMII submodes. -/
theorem port_mode_written_once {σ : Type} (K : PhyEnums) (rm : Regmap σ)
    (hok : ∀ s reg mask val, (rm.update_bits s reg mask val).1 = 0)
    (priv : phy_gmii_sel_priv) (hv : priv.soc_data ∈ variants)
    (hinit : ports_initialised priv)
    (id : Nat) (h1 : 1 ≤ id) (h2 : id ≤ priv.soc_data.num_ports)
    (submode : Int) (code : Nat)
    (hs : (submode = K.PHY_INTERFACE_MODE_MII ∧ code = 0) ∨
      (submode = K.PHY_INTERFACE_MODE_RMII ∧ code = 1) ∨
      (submode ∈ [K.PHY_INTERFACE_MODE_RGMII, K.PHY_INTERFACE_MODE_RGMII_RXID,
        K.PHY_INTERFACE_MODE_RGMII_ID, K.PHY_INTERFACE_MODE_RGMII_TXID] ∧ code = 2))
    (s : σ) :
    ∃ res, phy_gmii_sel_mode K rm priv (Bus.fresh s) id K.PHY_MODE_ETHERNET submode = some res ∧
      res.bus.writes.filter
          (fun w => w.reg = (port_field priv id PHY_GMII_SEL_PORT_MODE).reg ∧
            w.mask = (port_field priv id PHY_GMII_SEL_PORT_MODE).mask)
        = [⟨(port_field priv id PHY_GMII_SEL_PORT_MODE).reg,
            (port_field priv id PHY_GMII_SEL_PORT_MODE).mask,
            code <<< (port_field priv id PHY_GMII_SEL_PORT_MODE).shift⟩] := by
  obtain ⟨l, e, row, hl, he, -, hrow, hsoc, -⟩ := ctx_of_initialised hinit h1 h2
  obtain ⟨flag, ht, hc⟩ : ∃ flag, (submode, code, flag) ∈ spec_mode_table K ∧ code ≤ 2 := by
    simp only [List.mem_cons, List.mem_singleton, List.not_mem_nil, or_false] at hs
    rcases hs with ⟨rfl, rfl⟩ | ⟨rfl, rfl⟩ | ⟨rfl | rfl | rfl | rfl, rfl⟩
    · exact ⟨0, by simp [spec_mode_table], by omega⟩
    · exact ⟨0, by simp [spec_mode_table], by omega⟩
    · exact ⟨0, by simp [spec_mode_table], by omega⟩
    · exact ⟨0, by simp [spec_mode_table], by omega⟩
    · exact ⟨1, by simp [spec_mode_table], by omega⟩
    · exact ⟨1, by simp [spec_mode_table], by omega⟩
  rw [port_field_eq hl h1 he, hrow]
  rcases variant_row hv (by omega) hsoc with h | h | h | h | h | h <;>
  · obtain ⟨hs1, -, hr⟩ := h
    subst hr
    obtain ⟨res, hres, -, -, hw⟩ := mode_all_ok K rm hok hl h1 he hrow ht (Bus.fresh s)
    refine ⟨res, hres, ?_⟩
    simp only [hw, hs1]
    interval_cases code <;>
    simp [spec_writes, Bus.writes, Bus.fresh, phy_gmii_sel_soc_am33xx, phy_gmii_sel_soc_dra7,
      phy_gmii_sel_soc_dm814, BIT, PHY_GMII_SEL_PORT_MODE, PHY_GMII_SEL_RGMII_ID_MODE,
      PHY_GMII_SEL_RMII_IO_CLK_EN, List.filter_cons]

theorem port_mode_written_once_witness :
    ∃ res, phy_gmii_sel_mode sampleEnums okRegmap (initial_priv phy_gmii_sel_soc_am33xx)
        (Bus.fresh ()) 2 sampleEnums.PHY_MODE_ETHERNET sampleEnums.PHY_INTERFACE_MODE_RGMII_ID
        = some res ∧
      res.bus.writes.filter
          (fun w => w.reg = (port_field (initial_priv phy_gmii_sel_soc_am33xx) 2
              PHY_GMII_SEL_PORT_MODE).reg ∧
            w.mask = (port_field (initial_priv phy_gmii_sel_soc_am33xx) 2
              PHY_GMII_SEL_PORT_MODE).mask)
        = [⟨(port_field (initial_priv phy_gmii_sel_soc_am33xx) 2 PHY_GMII_SEL_PORT_MODE).reg,
            (port_field (initial_priv phy_gmii_sel_soc_am33xx) 2 PHY_GMII_SEL_PORT_MODE).mask,
            2 <<< (port_field (initial_priv phy_gmii_sel_soc_am33xx) 2
              PHY_GMII_SEL_PORT_MODE).shift⟩] :=
  port_mode_written_once sampleEnums okRegmap (fun _ _ _ _ => rfl)
    (initial_priv phy_gmii_sel_soc_am33xx) (by decide) (by decide) 2 (by decide) (by decide)
    sampleEnums.PHY_INTERFACE_MODE_RGMII_ID 2 (by decide) ()

/-- C2: on every variant, port and register state, `phy_gmii_sel_mode` called
with a submode outside the six supported ones returns `-EINVAL`, issues no
register write (the register map and its log are untouched) and leaves every
port context, the recorded submode included, unchanged. -/
theorem unsupported_submode_rejected {σ : Type} (K : PhyEnums) (rm : Regmap σ)
    (priv : phy_gmii_sel_priv) (hinit : ports_initialised priv)
    (id : Nat) (h1 : 1 ≤ id) (h2 : id ≤ priv.soc_data.num_ports)
    (mode submode : Int) (hs : submode ∉ K.supported) (bus : Bus σ) :
    ∃ res, phy_gmii_sel_mode K rm priv bus id mode submode = some res ∧
      res.ret = -EINVAL ∧ res.bus.st = bus.st ∧ res.bus.log = bus.log ∧ res.priv = priv := by
  obtain ⟨l, e, row, hl, he, -, -, -, -⟩ := ctx_of_initialised hinit h1 h2
  have hid : id ≠ 0 := by omega
  by_cases hm : mode = K.PHY_MODE_ETHERNET <;>
  simp [phy_gmii_sel_mode, hl, he, hid, hm, switch_of_unsupported K hs]

theorem unsupported_submode_rejected_witness :
    ∃ res, phy_gmii_sel_mode sampleEnums okRegmap (initial_priv phy_gmii_sel_soc_dm814)
        (Bus.fresh ()) 1 sampleEnums.PHY_MODE_ETHERNET 1 = some res ∧
      res.ret = -EINVAL ∧ res.bus.st = (Bus.fresh ()).st ∧ res.bus.log = (Bus.fresh ()).log ∧
      res.priv = initial_priv phy_gmii_sel_soc_dm814 :=
  unsupported_submode_rejected sampleEnums okRegmap (initial_priv phy_gmii_sel_soc_dm814)
    (by decide) 1 (by decide) (by decide) sampleEnums.PHY_MODE_ETHERNET 1 (by decide)
    (Bus.fresh ())

/-- C3: on every variant, port, supported submode and stored clock flag, when
all writes succeed the writes issued by `phy_gmii_sel_mode` are, in this
order: the PORT_MODE write; then, only if the features contain RGMII_ID_MODE,
the write of `flag << shift` to the RGMII_ID_MODE field of the port (flag 1
exactly for RGMII_ID and RGMII_TXID); then, only if the features contain
RMII_IO_CLK_EN, the write of `rmii_clock_external << shift` to the
RMII_IO_CLK_EN field.  There are 1 + (number of features present) writes and
the call returns 0. -/
theorem write_trace_in_order {σ : Type} (K : PhyEnums) (rm : Regmap σ)
    (hok : ∀ s reg mask val, (rm.update_bits s reg mask val).1 = 0)
    (priv : phy_gmii_sel_priv) (hv : priv.soc_data ∈ variants)
    (hinit : ports_initialised priv)
    (id : Nat) (h1 : 1 ≤ id) (h2 : id ≤ priv.soc_data.num_ports)
    (submode : Int) (code flag : Nat) (ht : (submode, code, flag) ∈ spec_mode_table K)
    (s : σ) :
    ∃ res, phy_gmii_sel_mode K rm priv (Bus.fresh s) id K.PHY_MODE_ETHERNET submode = some res ∧
      res.ret = 0 ∧
      res.bus.writes =
        [⟨(port_field priv id PHY_GMII_SEL_PORT_MODE).reg,
          (port_field priv id PHY_GMII_SEL_PORT_MODE).mask,
          code <<< (port_field priv id PHY_GMII_SEL_PORT_MODE).shift⟩]
        ++ (if priv.soc_data.features &&& BIT PHY_GMII_SEL_RGMII_ID_MODE ≠ 0 then
              [⟨(port_field priv id PHY_GMII_SEL_RGMII_ID_MODE).reg,
                (port_field priv id PHY_GMII_SEL_RGMII_ID_MODE).mask,
                flag <<< (port_field priv id PHY_GMII_SEL_RGMII_ID_MODE).shift⟩]
            else [])
        ++ (if priv.soc_data.features &&& BIT PHY_GMII_SEL_RMII_IO_CLK_EN ≠ 0 then
              [⟨(port_field priv id PHY_GMII_SEL_RMII_IO_CLK_EN).reg,
                (port_field priv id PHY_GMII_SEL_RMII_IO_CLK_EN).mask,
                shl32 (port_ctx priv id).rmii_clock_external
                  (port_field priv id PHY_GMII_SEL_RMII_IO_CLK_EN).shift⟩]
            else []) ∧
      res.bus.writes.length =
        1 + (if priv.soc_data.features &&& BIT PHY_GMII_SEL_RGMII_ID_MODE ≠ 0 then 1 else 0)
          + (if priv.soc_data.features &&& BIT PHY_GMII_SEL_RMII_IO_CLK_EN ≠ 0 then 1 else 0) := by
  obtain ⟨l, e, row, hl, he, -, hrow, hsoc, -⟩ := ctx_of_initialised hinit h1 h2
  obtain ⟨hc, hf⟩ := table_bounds K ht
  simp only [port_field_eq hl h1 he, port_ctx_eq hl h1 he, hrow]
  rcases variant_row hv (by omega) hsoc with h | h | h | h | h | h <;>
  · obtain ⟨hs1, -, hr⟩ := h
    subst hr
    obtain ⟨res, hres, hret, -, hw⟩ := mode_all_ok K rm hok hl h1 he hrow ht (Bus.fresh s)
    refine ⟨res, hres, hret, ?_⟩
    rw [hw]
    interval_cases code <;> interval_cases flag <;>
    simp [hs1, spec_writes, Bus.writes, Bus.fresh, am33xx_rgmii_id, am33xx_rmii_clk,
      dra7_rgmii_id, dra7_rmii_clk, dm814_rgmii_id, dm814_rmii_clk, PHY_GMII_SEL_PORT_MODE,
      PHY_GMII_SEL_RGMII_ID_MODE, PHY_GMII_SEL_RMII_IO_CLK_EN, shl32, toU32]

theorem write_trace_in_order_witness :
    ∃ res, phy_gmii_sel_mode sampleEnums okRegmap (initial_priv phy_gmii_sel_soc_dm814)
        (Bus.fresh ()) 2 sampleEnums.PHY_MODE_ETHERNET sampleEnums.PHY_INTERFACE_MODE_RGMII_TXID
        = some res ∧
      res.ret = 0 ∧ res.bus.writes = [⟨0x650, 0xC, 8⟩, ⟨0x650, 0x20, 0x20⟩] ∧
      res.bus.writes.length = 2 := by
  have h := write_trace_in_order sampleEnums okRegmap (fun _ _ _ _ => rfl)
    (initial_priv phy_gmii_sel_soc_dm814) (by decide) (by decide) 2 (by decide) (by decide)
    sampleEnums.PHY_INTERFACE_MODE_RGMII_TXID 2 1 (by decide) ()
  exact h

/-- C4: on every variant, port, PHY mode, submode, stored clock flag and
behaviour of the register map, no write issued by `phy_gmii_sel_mode` targets
an absent field: none has register offset all-ones or mask 0.  On the dra7
variant no write goes to the register of the RGMII_ID_MODE field, a request
for RGMII_ID included. -/
theorem no_write_to_absent_field {σ : Type} (K : PhyEnums) (rm : Regmap σ)
    (priv : phy_gmii_sel_priv) (hv : priv.soc_data ∈ variants)
    (hinit : ports_initialised priv)
    (id : Nat) (h1 : 1 ≤ id) (h2 : id ≤ priv.soc_data.num_ports)
    (mode submode : Int) (s : σ) :
    ∃ res, phy_gmii_sel_mode K rm priv (Bus.fresh s) id mode submode = some res ∧
      (∀ w ∈ res.bus.writes, w.reg ≠ 0xFFFFFFFF ∧ w.mask ≠ 0) ∧
      (priv.soc_data = phy_gmii_sel_soc_dra7 → ∀ w ∈ res.bus.writes,
        w.reg ≠ (port_field priv id PHY_GMII_SEL_RGMII_ID_MODE).reg) := by
  obtain ⟨l, e, f0, f1, f2, hl, he, hrow, -, -, hp1, -, -, hf0, hf1, hf2, hdra⟩ :=
    port_row hv hinit h1 h2
  have hid : id ≠ 0 := by omega
  have key : ∃ res, phy_gmii_sel_mode K rm priv (Bus.fresh s) id mode submode = some res ∧
      ∀ w ∈ res.bus.writes, w.reg ≠ 0xFFFFFFFF ∧ w.mask ≠ 0 := by
    by_cases hm : mode = K.PHY_MODE_ETHERNET
    · by_cases hsup : submode ∈ K.supported
      · obtain ⟨code, flag, ht⟩ := table_of_supported K hsup
        obtain ⟨r, hr, hsub⟩ := writes_subset rm priv.soc_data.features f0 f1 f2
          e.rmii_clock_external code flag (Bus.fresh s)
        rw [hm, mode_eval K rm hl h1 he ht, hrow, hr]
        refine ⟨_, rfl, ?_⟩
        intro w hw
        have hmem := hsub w hw
        simp only [Bus.writes, Bus.fresh, List.map_nil, List.nil_append, spec_writes,
          PHY_GMII_SEL_RGMII_ID_MODE, PHY_GMII_SEL_RMII_IO_CLK_EN, List.mem_append,
          List.mem_singleton] at hmem
        rcases hmem with (rfl | hmem) | hmem
        · exact hf0
        · split_ifs at hmem with hA
          · simp only [List.mem_singleton] at hmem
            subst hmem
            exact hf1 hA
          · simp at hmem
        · split_ifs at hmem with hB
          · simp only [List.mem_singleton] at hmem
            subst hmem
            exact hf2 hB
          · simp at hmem
      · refine ⟨⟨-EINVAL, priv, Bus.fresh s⟩, ?_, ?_⟩
        · simp [phy_gmii_sel_mode, hl, he, hid, hm, switch_of_unsupported K hsup]
        · simp [Bus.writes, Bus.fresh]
    · refine ⟨⟨-EINVAL, priv, Bus.fresh s⟩, ?_, ?_⟩
      · simp [phy_gmii_sel_mode, hm]
      · simp [Bus.writes, Bus.fresh]
  obtain ⟨res, hres, hall⟩ := key
  refine ⟨res, hres, hall, ?_⟩
  intro hd w hw
  rw [hp1, hdra hd]
  exact (hall w hw).1

theorem no_write_to_absent_field_witness :
    ∃ res, phy_gmii_sel_mode sampleEnums okRegmap (initial_priv phy_gmii_sel_soc_dra7)
        (Bus.fresh ()) 1 sampleEnums.PHY_MODE_ETHERNET sampleEnums.PHY_INTERFACE_MODE_RGMII_ID
        = some res ∧
      (∀ w ∈ res.bus.writes, w.reg ≠ 0xFFFFFFFF ∧ w.mask ≠ 0) ∧
      (phy_gmii_sel_soc_dra7 = phy_gmii_sel_soc_dra7 → ∀ w ∈ res.bus.writes,
        w.reg ≠ (port_field (initial_priv phy_gmii_sel_soc_dra7) 1
          PHY_GMII_SEL_RGMII_ID_MODE).reg) :=
  no_write_to_absent_field sampleEnums okRegmap (initial_priv phy_gmii_sel_soc_dra7)
    (by decide) (by decide) 1 (by decide) (by decide) sampleEnums.PHY_MODE_ETHERNET
    sampleEnums.PHY_INTERFACE_MODE_RGMII_ID ()

/-- C5: on every variant, port and supported submode: if the PORT_MODE write
fails, its error is returned and no further write is issued; if it succeeds
and the RGMII_ID_MODE write (feature present) fails, that error is returned
and the RMII_IO_CLK_EN write is not issued; if both succeed, the value of the
final RMII_IO_CLK_EN write (feature present) is returned.  The call returns 0
only if every write it issued succeeded. -/
theorem write_failure_propagates {σ : Type} (K : PhyEnums) (rm : Regmap σ)
    (priv : phy_gmii_sel_priv) (hv : priv.soc_data ∈ variants)
    (hinit : ports_initialised priv)
    (id : Nat) (h1 : 1 ≤ id) (h2 : id ≤ priv.soc_data.num_ports)
    (submode : Int) (code flag : Nat) (ht : (submode, code, flag) ∈ spec_mode_table K)
    (s : σ) :
    ∃ res, phy_gmii_sel_mode K rm priv (Bus.fresh s) id K.PHY_MODE_ETHERNET submode = some res ∧
      (rm.ret s (port_mode_write priv id code) ≠ 0 →
        res.ret = rm.ret s (port_mode_write priv id code) ∧
        res.bus.writes = [port_mode_write priv id code]) ∧
      (rm.ret s (port_mode_write priv id code) = 0 →
        priv.soc_data.features &&& BIT PHY_GMII_SEL_RGMII_ID_MODE ≠ 0 →
        rm.ret (rm.next s (port_mode_write priv id code)) (rgmii_id_write priv id flag) ≠ 0 →
        res.ret =
          rm.ret (rm.next s (port_mode_write priv id code)) (rgmii_id_write priv id flag) ∧
        res.bus.writes = [port_mode_write priv id code, rgmii_id_write priv id flag]) ∧
      (rm.ret s (port_mode_write priv id code) = 0 →
        priv.soc_data.features &&& BIT PHY_GMII_SEL_RGMII_ID_MODE ≠ 0 →
        rm.ret (rm.next s (port_mode_write priv id code)) (rgmii_id_write priv id flag) = 0 →
        priv.soc_data.features &&& BIT PHY_GMII_SEL_RMII_IO_CLK_EN ≠ 0 →
        res.ret =
          rm.ret (rm.next (rm.next s (port_mode_write priv id code))
            (rgmii_id_write priv id flag)) (rmii_clk_write priv id) ∧
        res.bus.writes = [port_mode_write priv id code, rgmii_id_write priv id flag,
          rmii_clk_write priv id]) ∧
      (res.ret = 0 → ∀ c ∈ res.bus.log, c.2 = 0) := by
  obtain ⟨l, e, f0, f1, f2, hl, he, hrow, hp, hp0, hp1, hp2, ⟨hs0, hs1, hs2⟩, -, -, -, -⟩ :=
    port_row hv hinit h1 h2
  obtain ⟨hc, hf⟩ := table_bounds K ht
  obtain ⟨r, hr, ha, hb, hc3, -, hd⟩ := writes_failure rm priv.soc_data.features f0 f1 f2
    e.rmii_clock_external code flag s (port_mode_write priv id code)
    (rgmii_id_write priv id flag) (rmii_clk_write priv id)
    (by rw [shl_small _ _ hc hs0]; simp [port_mode_write, hp0])
    (by simp [rgmii_id_write, hp1, shl32_small _ _ hf hs1])
    (by simp [rmii_clk_write, hp2, hp])
  rw [mode_eval K rm hl h1 he ht, hrow, hr]
  exact ⟨_, rfl, ha, hb, hc3, hd⟩

theorem write_failure_propagates_witness :
    ∃ res, phy_gmii_sel_mode sampleEnums (failingRegmap 1 (-5))
        (initial_priv phy_gmii_sel_soc_am33xx) (Bus.fresh 0) 1 sampleEnums.PHY_MODE_ETHERNET
        sampleEnums.PHY_INTERFACE_MODE_RGMII_ID = some res ∧ res.ret = -5 ∧
      res.bus.writes = [⟨0x650, 0x3, 2⟩, ⟨0x650, 0x10, 0x10⟩] := by
  obtain ⟨res, h, -, hb, -, -⟩ := write_failure_propagates sampleEnums (failingRegmap 1 (-5))
    (initial_priv phy_gmii_sel_soc_am33xx) (by decide) (by decide) 1 (by decide) (by decide)
    sampleEnums.PHY_INTERFACE_MODE_RGMII_ID 2 1 (by decide) 0
  exact ⟨res, h, hb (by decide) (by decide) (by decide)⟩

/-- C7: on the am33xx variant, port 1, submode RGMII_ID, all writes
succeeding, for every stored clock flag `c`: the writes issued are exactly
`update_bits(0x650, 0x3, 2)`, `update_bits(0x650, 0x10, 0x10)` and
`update_bits(0x650, 0x40, c << 6)`, in this order, the call returns 0 and the
recorded submode of port 1 ends as RGMII_ID. -/
theorem am33xx_port1_rgmii_id {σ : Type} (K : PhyEnums) (rm : Regmap σ)
    (hok : ∀ s reg mask val, (rm.update_bits s reg mask val).1 = 0)
    (priv : phy_gmii_sel_priv) (hsoc : priv.soc_data = phy_gmii_sel_soc_am33xx)
    (hinit : ports_initialised priv) (c : Int)
    (hclk : (port_ctx priv 1).rmii_clock_external = c) (s : σ) :
    ∃ res, phy_gmii_sel_mode K rm priv (Bus.fresh s) 1 K.PHY_MODE_ETHERNET
        K.PHY_INTERFACE_MODE_RGMII_ID = some res ∧
      res.ret = 0 ∧
      res.bus.writes = [⟨0x650, 0x3, 2⟩, ⟨0x650, 0x10, 0x10⟩, ⟨0x650, 0x40, shl32 c 6⟩] ∧
      (port_ctx res.priv 1).phy_if_mode = K.PHY_INTERFACE_MODE_RGMII_ID := by
  have hn : priv.soc_data.num_ports = 2 := by rw [hsoc]; rfl
  obtain ⟨l, e, row, hl, he, -, hrow, hr, -⟩ :=
    ctx_of_initialised hinit (le_refl 1) (by omega)
  have hrow2 : e.regfields = [⟨0x650, 0x3, 0⟩, ⟨0x650, 0x10, 4⟩, ⟨0x650, 0x40, 6⟩] := by
    rw [hsoc] at hr
    have : row = [⟨0x650, 0x3, 0⟩, ⟨0x650, 0x10, 4⟩, ⟨0x650, 0x40, 6⟩] := by
      simpa [phy_gmii_sel_soc_am33xx, phy_gmii_sel_fields_am33xx, REG_FIELD, toU32,
        eq_comm] using hr
    rw [hrow, this]
  have ht : (K.PHY_INTERFACE_MODE_RGMII_ID, 2, 1) ∈ spec_mode_table K := by
    simp [spec_mode_table]
  obtain ⟨res, hres, hret, hpriv, hw⟩ := mode_all_ok K rm hok hl (le_refl 1) he hrow2 ht
    (Bus.fresh s)
  rw [port_ctx_eq hl (le_refl 1) he] at hclk
  refine ⟨res, hres, hret, ?_, ?_⟩
  · rw [hw, hsoc, hclk]
    simp [spec_writes, Bus.writes, Bus.fresh, am33xx_rgmii_id, am33xx_rmii_clk,
      PHY_GMII_SEL_RGMII_ID_MODE, PHY_GMII_SEL_RMII_IO_CLK_EN]
    decide
  · have hlt : 0 < l.length := by
      rcases l with _ | ⟨a, t⟩
      · simp at he
      · simp
    rw [hpriv]
    simp [port_ctx, List.getElem?_set, hlt]

theorem am33xx_port1_rgmii_id_witness :
    ∃ res, phy_gmii_sel_mode sampleEnums okRegmap (initial_priv phy_gmii_sel_soc_am33xx)
        (Bus.fresh ()) 1 sampleEnums.PHY_MODE_ETHERNET
        sampleEnums.PHY_INTERFACE_MODE_RGMII_ID = some res ∧
      res.ret = 0 ∧
      res.bus.writes = [⟨0x650, 0x3, 2⟩, ⟨0x650, 0x10, 0x10⟩, ⟨0x650, 0x40, shl32 0 6⟩] ∧
      (port_ctx res.priv 1).phy_if_mode = sampleEnums.PHY_INTERFACE_MODE_RGMII_ID :=
  am33xx_port1_rgmii_id sampleEnums okRegmap (fun _ _ _ _ => rfl)
    (initial_priv phy_gmii_sel_soc_am33xx) (by decide) (by decide) 0 (by decide) ()

/-- C8: on the dra7 variant, for every port and every supported submode,
whatever the register map answers, `phy_gmii_sel_mode` issues exactly one
register write and no other: `update_bits(0x554, 0x3 << n, code << n)` with
`n = 0` for port 1 and `n = 4` for port 2. -/
theorem dra7_single_write {σ : Type} (K : PhyEnums) (rm : Regmap σ)
    (priv : phy_gmii_sel_priv) (hsoc : priv.soc_data = phy_gmii_sel_soc_dra7)
    (hinit : ports_initialised priv)
    (id n : Nat) (hid : (id = 1 ∧ n = 0) ∨ (id = 2 ∧ n = 4))
    (submode : Int) (code flag : Nat) (ht : (submode, code, flag) ∈ spec_mode_table K)
    (s : σ) :
    ∃ res, phy_gmii_sel_mode K rm priv (Bus.fresh s) id K.PHY_MODE_ETHERNET submode = some res ∧
      res.bus.writes = [⟨0x554, 0x3 <<< n, code <<< n⟩] := by
  have hn : priv.soc_data.num_ports = 2 := by rw [hsoc]; rfl
  have h1 : 1 ≤ id := by omega
  have h2 : id ≤ priv.soc_data.num_ports := by omega
  obtain ⟨l, e, row, hl, he, -, hrow, hr, -⟩ := ctx_of_initialised hinit h1 h2
  obtain ⟨hc, -⟩ := table_bounds K ht
  have hrow2 : e.regfields = [⟨0x554, 0x3 <<< n, n⟩, ⟨0xFFFFFFFF, 0, 0⟩, ⟨0xFFFFFFFF, 0, 0⟩] := by
    rw [hsoc] at hr
    rcases hid with ⟨rfl, rfl⟩ | ⟨rfl, rfl⟩
    · have : row = [⟨0x554, 0x3, 0⟩, ⟨0xFFFFFFFF, 0, 0⟩, ⟨0xFFFFFFFF, 0, 0⟩] := by
        simpa [phy_gmii_sel_soc_dra7, phy_gmii_sel_fields_dra7, REG_FIELD, toU32,
          eq_comm] using hr
      rw [hrow, this]; rfl
    · have : row = [⟨0x554, 0x30, 4⟩, ⟨0xFFFFFFFF, 0, 0⟩, ⟨0xFFFFFFFF, 0, 0⟩] := by
        simpa [phy_gmii_sel_soc_dra7, phy_gmii_sel_fields_dra7, REG_FIELD, toU32,
          eq_comm] using hr
      rw [hrow, this]; rfl
  obtain ⟨r, hr1, -, hr3⟩ := writes_no_features rm priv.soc_data.features
    (by rw [hsoc]; exact dra7_rgmii_id) (by rw [hsoc]; exact dra7_rmii_clk)
    ⟨0x554, 0x3 <<< n, n⟩ ⟨0xFFFFFFFF, 0, 0⟩ ⟨0xFFFFFFFF, 0, 0⟩ e.rmii_clock_external
    code flag (Bus.fresh s)
  rw [mode_eval K rm hl h1 he ht, hrow2, hr1]
  refine ⟨_, rfl, ?_⟩
  have hn7 : n ≤ 7 := by omega
  rw [hr3, shl_small _ _ hc hn7]
  rfl

theorem dra7_single_write_witness :
    ∃ res, phy_gmii_sel_mode sampleEnums okRegmap (initial_priv phy_gmii_sel_soc_dra7)
        (Bus.fresh ()) 2 sampleEnums.PHY_MODE_ETHERNET sampleEnums.PHY_INTERFACE_MODE_MII
        = some res ∧
      res.bus.writes = [⟨0x554, 0x30, 0⟩] :=
  dra7_single_write sampleEnums okRegmap (initial_priv phy_gmii_sel_soc_dra7) (by decide)
    (by decide) 2 4 (by decide) sampleEnums.PHY_INTERFACE_MODE_MII 0 0 (by decide) ()

/-- C6: idempotence.  With `update_bits` the read-modify-write of the spec,
for every variant, port, supported submode, stored clock flag and initial
register contents, a second `phy_gmii_sel_mode` with the same submode right
after the first leaves the registers and the port contexts as the first left
them; both calls return 0. -/
theorem mode_idempotent (K : PhyEnums)
    (priv : phy_gmii_sel_priv) (hv : priv.soc_data ∈ variants)
    (hinit : ports_initialised priv)
    (id : Nat) (h1 : 1 ≤ id) (h2 : id ≤ priv.soc_data.num_ports)
    (submode : Int) (hs : submode ∈ K.supported) (regs : Nat → Nat) :
    ∃ once twice,
      phy_gmii_sel_mode K rmwRegmap priv (Bus.fresh regs) id K.PHY_MODE_ETHERNET submode
        = some once ∧
      phy_gmii_sel_mode K rmwRegmap once.priv once.bus id K.PHY_MODE_ETHERNET submode
        = some twice ∧
      once.ret = 0 ∧ twice.ret = 0 ∧
      twice.bus.st = once.bus.st ∧ twice.priv = once.priv := by
  obtain ⟨l, e, f0, f1, f2, hl, he, hrow, -⟩ := port_row hv hinit h1 h2
  obtain ⟨code, flag, ht⟩ := table_of_supported K hs
  have hok : ∀ (s : Nat → Nat) reg mask val, (rmwRegmap.update_bits s reg mask val).1 = 0 :=
    fun _ _ _ _ => rfl
  obtain ⟨once, ho, hor, hop, hos⟩ := mode_all_ok_state K rmwRegmap hok hl h1 he hrow ht
    (Bus.fresh regs)
  have hlt : id - 1 < l.length := by
    rcases Nat.lt_or_ge (id - 1) l.length with h | h
    · exact h
    · rw [List.getElem?_eq_none h] at he
      cases he
  have hl2 : once.priv.if_phys = some (l.set (id - 1)
      ⟨e.id, e.rmii_clock_external, submode, e.regfields⟩) := by rw [hop]
  have he2 : (l.set (id - 1) ⟨e.id, e.rmii_clock_external, submode, e.regfields⟩)[id - 1]?
      = some ⟨e.id, e.rmii_clock_external, submode, e.regfields⟩ := by
    simp [List.getElem?_set, hlt]
  obtain ⟨twice, ht2, htr, htp, hts⟩ := mode_all_ok_state K rmwRegmap hok hl2 h1 he2 hrow ht
    once.bus
  refine ⟨once, twice, ho, ht2, hor, htr, ?_, ?_⟩
  · have hsoc : once.priv.soc_data = priv.soc_data := by rw [hop]
    rw [hts, hsoc, hos]
    exact rmw_replay _ _
  · rw [htp, hop]
    simp

theorem mode_idempotent_witness :
    ∃ once twice,
      phy_gmii_sel_mode sampleEnums rmwRegmap (initial_priv phy_gmii_sel_soc_am33xx)
        (Bus.fresh (fun _ => 0xFFFFFFFF)) 1 sampleEnums.PHY_MODE_ETHERNET
        sampleEnums.PHY_INTERFACE_MODE_RGMII = some once ∧
      phy_gmii_sel_mode sampleEnums rmwRegmap once.priv once.bus 1
        sampleEnums.PHY_MODE_ETHERNET sampleEnums.PHY_INTERFACE_MODE_RGMII = some twice ∧
      once.ret = 0 ∧ twice.ret = 0 ∧
      twice.bus.st = once.bus.st ∧ twice.priv = once.priv :=
  mode_idempotent sampleEnums (initial_priv phy_gmii_sel_soc_am33xx) (by decide) (by decide)
    1 (by decide) (by decide) sampleEnums.PHY_INTERFACE_MODE_RGMII (by decide)
    (fun _ => 0xFFFFFFFF)

/-! ## Port resolution -/

/-- C9, the failing input: on an initialised am33xx instance a request for
port index 0 with two arguments passes the upper-bound test and then reads
`if_phys[-1]`, outside the port array; the model has no value for the call
(in particular it does not return `-EINVAL`). -/
theorem xlate_index_zero_out_of_bounds :
    phy_gmii_sel_of_xlate (some (initial_priv phy_gmii_sel_soc_am33xx)) 0 ⟨2, 0, 0⟩ = none := by
  decide

/-- Every port index above `num_ports`, the values with the sign bit set
included, is rejected with `-EINVAL` and nothing is changed. -/
theorem xlate_rejects_above_range (priv : phy_gmii_sel_priv) (hv : priv.soc_data ∈ variants)
    (hinit : ports_initialised priv) (phy_id0 : Nat) (args : ofnode_phandle_args)
    (hc : 2 ≤ args.args_count) (hlt : args.arg0 < 2 ^ 32)
    (hk : priv.soc_data.num_ports < args.arg0) :
    phy_gmii_sel_of_xlate (some priv) phy_id0 args = some ⟨-EINVAL, some priv, phy_id0⟩ := by
  obtain ⟨hn, x, y, hl, -, -⟩ := initialised_two hv hinit
  have hu : toU32 (toS32 args.arg0) = args.arg0 := by
    unfold toU32 toS32
    split_ifs <;> omega
  have h1 : ¬ args.args_count < 1 := by omega
  have h2 : ¬ args.args_count < 2 := by omega
  simp [phy_gmii_sel_of_xlate, hl, h1, h2, hu, hk]

/-- C10: on an initialised instance of a variant whose features contain
RMII_IO_CLK_EN, `phy_gmii_sel_of_xlate` with fewer than two arguments fails
with `-EINVAL`; with two arguments and an in-range port index `k` it returns
0, sets the handle id to `k`, stores the second argument as
`rmii_clock_external` of port `k` and leaves the `rmii_clock_external` of
every other port unchanged.  On a variant without that feature one argument
suffices and no port context is changed, whatever the second argument. -/
theorem xlate_clock_argument (priv : phy_gmii_sel_priv) (hv : priv.soc_data ∈ variants)
    (hinit : ports_initialised priv) (phy_id0 : Nat) (cnt : Int) (k clk : Nat)
    (hk1 : 1 ≤ k) (hk2 : k ≤ priv.soc_data.num_ports) :
    (priv.soc_data.features &&& BIT PHY_GMII_SEL_RMII_IO_CLK_EN ≠ 0 →
      (cnt < 2 → ∀ a0, phy_gmii_sel_of_xlate (some priv) phy_id0 ⟨cnt, a0, clk⟩
          = some ⟨-EINVAL, some priv, phy_id0⟩) ∧
      (2 ≤ cnt → ∃ priv1, phy_gmii_sel_of_xlate (some priv) phy_id0 ⟨cnt, k, clk⟩
          = some ⟨0, some priv1, k⟩ ∧
        (port_ctx priv1 k).rmii_clock_external = toS32 clk ∧
        ∀ j, j ≠ k →
          (port_ctx priv1 j).rmii_clock_external = (port_ctx priv j).rmii_clock_external)) ∧
    (priv.soc_data.features &&& BIT PHY_GMII_SEL_RMII_IO_CLK_EN = 0 → 1 ≤ cnt →
      phy_gmii_sel_of_xlate (some priv) phy_id0 ⟨cnt, k, clk⟩ = some ⟨0, some priv, k⟩) := by
  obtain ⟨hn, x, y, hl, hx, hy⟩ := initialised_two hv hinit
  rw [hn] at hk2
  obtain ⟨sd, ifp⟩ := priv
  simp only at hl hn
  subst hl
  simp only [PHY_GMII_SEL_RMII_IO_CLK_EN]
  refine ⟨fun hF => ⟨?_, ?_⟩, ?_⟩
  · intro hc a0
    by_cases h1 : cnt < 1
    · simp [phy_gmii_sel_of_xlate, h1]
    · simp [phy_gmii_sel_of_xlate, h1, hF, hc, PHY_GMII_SEL_RMII_IO_CLK_EN]
  · intro hc
    have h1 : ¬ cnt < 1 := by omega
    have h2 : ¬ cnt < 2 := by omega
    interval_cases k
    · refine ⟨⟨sd, some [⟨x.id, toS32 clk, x.phy_if_mode, x.regfields⟩, y]⟩, ?_, ?_, ?_⟩
      · simp [phy_gmii_sel_of_xlate, h1, h2, hF, hn, hx, toS32, toU32, PHY_GMII_SEL_RMII_IO_CLK_EN]
      · simp [port_ctx]
      · intro j hj
        rcases j with _ | _ | j
        · simp [port_ctx]
        · exact absurd rfl hj
        · simp [port_ctx]
    · refine ⟨⟨sd, some [x, ⟨y.id, toS32 clk, y.phy_if_mode, y.regfields⟩]⟩, ?_, ?_, ?_⟩
      · simp [phy_gmii_sel_of_xlate, h1, h2, hF, hn, hy, toS32, toU32, PHY_GMII_SEL_RMII_IO_CLK_EN]
      · simp [port_ctx]
      · intro j hj
        rcases j with _ | _ | _ | j
        · simp [port_ctx]
        · simp [port_ctx]
        · exact absurd rfl hj
        · simp [port_ctx]
  · intro hF hc
    have h1 : ¬ cnt < 1 := by omega
    interval_cases k
    · simp [phy_gmii_sel_of_xlate, h1, hF, hn, hx, toS32, toU32, PHY_GMII_SEL_RMII_IO_CLK_EN]
    · simp [phy_gmii_sel_of_xlate, h1, hF, hn, hy, toS32, toU32, PHY_GMII_SEL_RMII_IO_CLK_EN]

theorem xlate_clock_argument_witness :
    ∃ priv1, phy_gmii_sel_of_xlate (some (initial_priv phy_gmii_sel_soc_am33xx)) 0 ⟨2, 2, 1⟩
        = some ⟨0, some priv1, 2⟩ ∧
      (port_ctx priv1 2).rmii_clock_external = toS32 1 ∧
      ∀ j, j ≠ 2 →
        (port_ctx priv1 j).rmii_clock_external
          = (port_ctx (initial_priv phy_gmii_sel_soc_am33xx) j).rmii_clock_external :=
  ((xlate_clock_argument (initial_priv phy_gmii_sel_soc_am33xx) (by decide) (by decide)
    0 2 2 1 (by decide) (by decide)).1 (by decide)).2 (by decide)

/-- C10, as stated, fails when the port array is missing: on the am33xx
variant (features contain RMII_IO_CLK_EN) a call with one argument on an
instance whose `if_phys` is null returns `-ENODEV`, not `-EINVAL`; the guard
of line 208 comes before the comparison of the count with 2. -/
theorem xlate_one_argument_without_ports :
    phy_gmii_sel_soc_am33xx.features &&& BIT PHY_GMII_SEL_RMII_IO_CLK_EN ≠ 0 ∧
    (1 : Int) < 2 ∧
    phy_gmii_sel_of_xlate (some ⟨phy_gmii_sel_soc_am33xx, none⟩) 0 ⟨1, 1, 0⟩
      = some ⟨-ENODEV, some ⟨phy_gmii_sel_soc_am33xx, none⟩, 0⟩ ∧
    -ENODEV ≠ -EINVAL := by
  decide

/-- C11: `phy_gmii_sel_of_xlate` issues no register write (the register map
and its log are as before the call), and whenever it returns an error (too
few arguments, missing port array, out-of-range index, id mismatch) the
driver instance with every port context and the handle id of the caller are
exactly as before the call. -/
theorem xlate_frame {σ : Type} (priv : Option phy_gmii_sel_priv) (bus : Bus σ)
    (phy_id0 : Nat) (args : ofnode_phandle_args) (res : XlateResult) (bus1 : Bus σ)
    (h : phy_gmii_sel_of_xlate_bus priv bus phy_id0 args = some (res, bus1)) :
    bus1.st = bus.st ∧ bus1.log = bus.log ∧
    (res.ret ≠ 0 → res.priv = priv ∧ res.phy_id = phy_id0) := by
  simp only [phy_gmii_sel_of_xlate_bus, Option.map_eq_some'] at h
  obtain ⟨r, hr, hp⟩ := h
  cases hp
  refine ⟨rfl, rfl, ?_⟩
  intro hne
  unfold phy_gmii_sel_of_xlate at hr
  simp only at hr
  split at hr
  · cases hr; exact ⟨rfl, rfl⟩
  · split at hr
    · cases hr; exact ⟨rfl, rfl⟩
    · split at hr
      · cases hr; exact ⟨rfl, rfl⟩
      · split at hr
        · cases hr; exact ⟨rfl, rfl⟩
        · split at hr
          · cases hr; exact ⟨rfl, rfl⟩
          · split at hr
            · cases hr
            · split at hr
              · cases hr
              · split at hr
                · cases hr; exact ⟨rfl, rfl⟩
                · split at hr
                  · cases hr
                  · cases hr
                    exact absurd rfl hne

theorem xlate_frame_witness :
    (Bus.fresh ()).st = (Bus.fresh ()).st ∧ (Bus.fresh ()).log = (Bus.fresh ()).log ∧
    ((-EINVAL : Int) ≠ 0 →
      (some (initial_priv phy_gmii_sel_soc_am33xx)) = some (initial_priv phy_gmii_sel_soc_am33xx)
        ∧ (7 : Nat) = 7) :=
  xlate_frame (some (initial_priv phy_gmii_sel_soc_am33xx)) (Bus.fresh ()) 7 ⟨2, 3, 1⟩
    ⟨-EINVAL, some (initial_priv phy_gmii_sel_soc_am33xx), 7⟩ (Bus.fresh ()) rfl

/-! ## The static tables -/

/-- C12: the field tables are bit-exact.  `REG_FIELD(reg, m, s)` yields
`{reg, m << s, s}`; am33xx and dm814 have, for ports 1 and 2, PORT_MODE at
0x650 with masks 0x3 and 0xC (shifts 0, 2), RGMII_ID_MODE with masks 0x10 and
0x20 (shifts 4, 5), RMII_IO_CLK_EN with masks 0x40 and 0x80 (shifts 6, 7);
dra7 has PORT_MODE at 0x554 with masks 0x3 and 0x30 (shifts 0, 4) and both
optional fields equal to the sentinel `{0xFFFFFFFF, 0, 0}`; every variant has
two ports; the features are RGMII_ID and RMII_CLK on am33xx, none on dra7 and
RGMII_ID on dm814. -/
theorem tables_bit_exact (reg m n : Nat) (hreg : reg < 2 ^ 32) (hm : m <<< n < 2 ^ 32) :
    REG_FIELD reg m n = ⟨reg, m <<< n, n⟩ ∧
    phy_gmii_sel_soc_am33xx.regfields =
      [[⟨0x650, 0x3, 0⟩, ⟨0x650, 0x10, 4⟩, ⟨0x650, 0x40, 6⟩],
       [⟨0x650, 0xC, 2⟩, ⟨0x650, 0x20, 5⟩, ⟨0x650, 0x80, 7⟩]] ∧
    phy_gmii_sel_soc_dm814.regfields = phy_gmii_sel_soc_am33xx.regfields ∧
    phy_gmii_sel_soc_dra7.regfields =
      [[⟨0x554, 0x3, 0⟩, ⟨0xFFFFFFFF, 0, 0⟩, ⟨0xFFFFFFFF, 0, 0⟩],
       [⟨0x554, 0x30, 4⟩, ⟨0xFFFFFFFF, 0, 0⟩, ⟨0xFFFFFFFF, 0, 0⟩]] ∧
    (∀ soc ∈ variants, soc.num_ports = 2) ∧
    phy_gmii_sel_soc_am33xx.features
      = BIT PHY_GMII_SEL_RGMII_ID_MODE ||| BIT PHY_GMII_SEL_RMII_IO_CLK_EN ∧
    phy_gmii_sel_soc_am33xx.features = 6 ∧
    phy_gmii_sel_soc_dra7.features = 0 ∧
    phy_gmii_sel_soc_dm814.features = BIT PHY_GMII_SEL_RGMII_ID_MODE ∧
    phy_gmii_sel_soc_dm814.features = 2 := by
  refine ⟨?_, by decide, rfl, by decide, by decide, rfl, by decide, rfl, rfl, by decide⟩
  rw [Nat.shiftLeft_eq] at hm ⊢
  have h1 : toU32 (reg : Int) = reg := by
    unfold toU32
    omega
  have h2 : toU32 ((m : Int) * 2 ^ n) = m * 2 ^ n := by
    unfold toU32
    have hc : ((m : Int) * 2 ^ n) = ((m * 2 ^ n : Nat) : Int) := by push_cast; rfl
    rw [hc]
    omega
  simp only [REG_FIELD, h1, h2]

theorem tables_bit_exact_witness :
    REG_FIELD (0x650 : Nat) (0x3 : Nat) 2 = ⟨0x650, 0x3 <<< 2, 2⟩ ∧
    phy_gmii_sel_soc_am33xx.regfields =
      [[⟨0x650, 0x3, 0⟩, ⟨0x650, 0x10, 4⟩, ⟨0x650, 0x40, 6⟩],
       [⟨0x650, 0xC, 2⟩, ⟨0x650, 0x20, 5⟩, ⟨0x650, 0x80, 7⟩]] ∧
    phy_gmii_sel_soc_dm814.regfields = phy_gmii_sel_soc_am33xx.regfields ∧
    phy_gmii_sel_soc_dra7.regfields =
      [[⟨0x554, 0x3, 0⟩, ⟨0xFFFFFFFF, 0, 0⟩, ⟨0xFFFFFFFF, 0, 0⟩],
       [⟨0x554, 0x30, 4⟩, ⟨0xFFFFFFFF, 0, 0⟩, ⟨0xFFFFFFFF, 0, 0⟩]] ∧
    (∀ soc ∈ variants, soc.num_ports = 2) ∧
    phy_gmii_sel_soc_am33xx.features
      = BIT PHY_GMII_SEL_RGMII_ID_MODE ||| BIT PHY_GMII_SEL_RMII_IO_CLK_EN ∧
    phy_gmii_sel_soc_am33xx.features = 6 ∧
    phy_gmii_sel_soc_dra7.features = 0 ∧
    phy_gmii_sel_soc_dm814.features = BIT PHY_GMII_SEL_RGMII_ID_MODE ∧
    phy_gmii_sel_soc_dm814.features = 2 :=
  tables_bit_exact 0x650 0x3 2 (by decide) (by decide)

/-- C13 as stated fails on dm814: its features do not contain RMII_IO_CLK_EN,
yet the RMII_IO_CLK_EN field of its first port is not the sentinel (dm814
uses the am33xx table). -/
theorem dm814_clk_field_not_sentinel :
    phy_gmii_sel_soc_dm814 ∈ variants ∧
    phy_gmii_sel_soc_dm814.features &&& BIT PHY_GMII_SEL_RMII_IO_CLK_EN = 0 ∧
    table_field phy_gmii_sel_soc_dm814 0 PHY_GMII_SEL_RMII_IO_CLK_EN = ⟨0x650, 0x40, 6⟩ ∧
    table_field phy_gmii_sel_soc_dm814 0 PHY_GMII_SEL_RMII_IO_CLK_EN ≠ sentinel := by
  decide

/-- C13, amended: for every known variant, every port and each optional field
kind, the field has a non-zero mask when the features contain that kind; when
they do not, the field is the sentinel, except for RMII_IO_CLK_EN on dm814,
where it is the field of the am33xx table. -/
theorem feature_mask_and_sentinel (soc : phy_gmii_sel_soc_data) (hv : soc ∈ variants)
    (i : Nat) (hi : i < soc.num_ports) (kind : Nat)
    (hk : kind = PHY_GMII_SEL_RGMII_ID_MODE ∨ kind = PHY_GMII_SEL_RMII_IO_CLK_EN) :
    (soc.features &&& BIT kind ≠ 0 → (table_field soc i kind).mask ≠ 0) ∧
    (soc.features &&& BIT kind = 0 →
      table_field soc i kind = sentinel ∨
      (soc = phy_gmii_sel_soc_dm814 ∧ kind = PHY_GMII_SEL_RMII_IO_CLK_EN ∧
        table_field soc i kind = table_field phy_gmii_sel_soc_am33xx i kind)) := by
  simp only [variants, phy_gmii_sel_id_table, List.map_cons, List.map_nil, List.mem_cons,
    List.mem_singleton, List.not_mem_nil, or_false] at hv
  rcases hv with rfl | rfl | rfl | rfl <;>
  · have hi2 : i < 2 := hi
    interval_cases i <;> rcases hk with rfl | rfl <;> decide

theorem feature_mask_and_sentinel_witness :
    (phy_gmii_sel_soc_dra7.features &&& BIT PHY_GMII_SEL_RGMII_ID_MODE ≠ 0 →
      (table_field phy_gmii_sel_soc_dra7 1 PHY_GMII_SEL_RGMII_ID_MODE).mask ≠ 0) ∧
    (phy_gmii_sel_soc_dra7.features &&& BIT PHY_GMII_SEL_RGMII_ID_MODE = 0 →
      table_field phy_gmii_sel_soc_dra7 1 PHY_GMII_SEL_RGMII_ID_MODE = sentinel ∨
      (phy_gmii_sel_soc_dra7 = phy_gmii_sel_soc_dm814 ∧
        PHY_GMII_SEL_RGMII_ID_MODE = PHY_GMII_SEL_RMII_IO_CLK_EN ∧
        table_field phy_gmii_sel_soc_dra7 1 PHY_GMII_SEL_RGMII_ID_MODE
          = table_field phy_gmii_sel_soc_am33xx 1 PHY_GMII_SEL_RGMII_ID_MODE)) :=
  feature_mask_and_sentinel phy_gmii_sel_soc_dra7 (by decide) 1 (by decide)
    PHY_GMII_SEL_RGMII_ID_MODE (by decide)

/-! ## Initialisation -/

/-- On a known variant a successful `phy_gmii_sel_init_ports` yields
`initial_priv`, whatever the port array pointer held before. -/
theorem init_ports_variant {soc : phy_gmii_sel_soc_data} (hv : soc ∈ variants)
    (ifp : Option (List phy_gmii_sel_phy_priv)) :
    phy_gmii_sel_init_ports true ⟨soc, ifp⟩ = some (0, initial_priv soc) := by
  simp only [variants, phy_gmii_sel_id_table, List.map_cons, List.map_nil, List.mem_cons,
    List.mem_singleton, List.not_mem_nil, or_false] at hv
  rcases hv with rfl | rfl | rfl | rfl <;> rfl

/-- The instance a successful initialisation yields is initialised. -/
theorem initial_priv_initialised {soc : phy_gmii_sel_soc_data} (hv : soc ∈ variants) :
    ports_initialised (initial_priv soc) ∧ (initial_priv soc).soc_data = soc := by
  simp only [variants, phy_gmii_sel_id_table, List.map_cons, List.map_nil, List.mem_cons,
    List.mem_singleton, List.not_mem_nil, or_false] at hv
  rcases hv with rfl | rfl | rfl | rfl <;> exact ⟨by decide, rfl⟩

/-- Replacing the stored clock flag or submode of the entries keeps an
instance initialised. -/
theorem initialised_of_same_rows {sd : phy_gmii_sel_soc_data}
    {x y x1 y1 : phy_gmii_sel_phy_priv}
    (hinit : ports_initialised ⟨sd, some [x, y]⟩)
    (hx : x1.id = x.id ∧ x1.regfields = x.regfields)
    (hy : y1.id = y.id ∧ y1.regfields = y.regfields) :
    ports_initialised ⟨sd, some [x1, y1]⟩ := by
  obtain ⟨hlen, hall⟩ := hinit
  refine ⟨hlen, ?_⟩
  intro i hi
  have h := hall i hi
  rcases i with _ | _ | i
  · simpa [hx.1, hx.2] using h
  · simpa [hy.1, hy.2] using h
  · simp at h

/-- On an initialised instance a request for an in-range port with enough
arguments succeeds: the handle gets the port index and the instance stays
initialised on the same variant. -/
theorem xlate_ok {priv : phy_gmii_sel_priv} (hv : priv.soc_data ∈ variants)
    (hinit : ports_initialised priv) (phy_id0 : Nat) (cnt : Int) (k clk : Nat)
    (hk1 : 1 ≤ k) (hk2 : k ≤ priv.soc_data.num_ports)
    (hcnt : required_args priv.soc_data ≤ cnt) :
    ∃ priv1, phy_gmii_sel_of_xlate (some priv) phy_id0 ⟨cnt, k, clk⟩
        = some ⟨0, some priv1, k⟩ ∧
      priv1.soc_data = priv.soc_data ∧ ports_initialised priv1 := by
  obtain ⟨hn, x, y, hl, hx, hy⟩ := initialised_two hv hinit
  rw [hn] at hk2
  obtain ⟨sd, ifp⟩ := priv
  simp only at hl hn hcnt
  subst hl
  simp only [required_args, PHY_GMII_SEL_RMII_IO_CLK_EN] at hcnt
  by_cases hF : sd.features &&& BIT 2 = 0
  · simp only [hF, ne_eq, not_true_eq_false, if_false] at hcnt
    have hc1 : ¬ cnt < 1 := by omega
    refine ⟨⟨sd, some [x, y]⟩, ?_, rfl, hinit⟩
    interval_cases k
    · simp [phy_gmii_sel_of_xlate, hc1, hF, hn, hx, toS32, toU32, PHY_GMII_SEL_RMII_IO_CLK_EN]
    · simp [phy_gmii_sel_of_xlate, hc1, hF, hn, hy, toS32, toU32, PHY_GMII_SEL_RMII_IO_CLK_EN]
  · simp only [hF, ne_eq, not_false_eq_true, if_true] at hcnt
    have hc1 : ¬ cnt < 1 := by omega
    have hc2 : ¬ cnt < 2 := by omega
    interval_cases k
    · refine ⟨⟨sd, some [⟨x.id, toS32 clk, x.phy_if_mode, x.regfields⟩, y]⟩, ?_, rfl,
        initialised_of_same_rows hinit ⟨rfl, rfl⟩ ⟨rfl, rfl⟩⟩
      simp [phy_gmii_sel_of_xlate, hc1, hc2, hF, hn, hx, toS32, toU32,
        PHY_GMII_SEL_RMII_IO_CLK_EN]
    · refine ⟨⟨sd, some [x, ⟨y.id, toS32 clk, y.phy_if_mode, y.regfields⟩]⟩, ?_, rfl,
        initialised_of_same_rows hinit ⟨rfl, rfl⟩ ⟨rfl, rfl⟩⟩
      simp [phy_gmii_sel_of_xlate, hc1, hc2, hF, hn, hy, toS32, toU32,
        PHY_GMII_SEL_RMII_IO_CLK_EN]

/-- C14: after a successful `phy_gmii_sel_init_ports` on any variant the port
array has `num_ports` entries and entry `i` (0-based) has id `i + 1`, row `i`
of the field table of the variant, `rmii_clock_external = 0` and the
zero-filled `phy_if_mode` (no mode recorded yet); consequently for every `k`
in `[1, num_ports]` a `phy_gmii_sel_of_xlate` with at least the number of
arguments the variant requires succeeds with handle id `k`. -/
theorem init_ports_dense_ids (priv0 : phy_gmii_sel_priv) (hv : priv0.soc_data ∈ variants) :
    ∃ priv, phy_gmii_sel_init_ports true priv0 = some (0, priv) ∧
      priv.soc_data = priv0.soc_data ∧
      priv.if_phys.map List.length = some priv0.soc_data.num_ports ∧
      (∀ i, i < priv0.soc_data.num_ports →
        ∃ row, priv0.soc_data.regfields[i]? = some row ∧
          priv.if_phys.bind (fun l => l[i]?) = some ⟨i + 1, 0, 0, row⟩) ∧
      (∀ k, 1 ≤ k → k ≤ priv0.soc_data.num_ports → ∀ phy_id0 cnt clk,
        required_args priv0.soc_data ≤ cnt →
        ∃ priv1, phy_gmii_sel_of_xlate (some priv) phy_id0 ⟨cnt, k, clk⟩
          = some ⟨0, some priv1, k⟩) := by
  obtain ⟨sd, ifp⟩ := priv0
  simp only at hv ⊢
  obtain ⟨hi, hs⟩ := initial_priv_initialised hv
  refine ⟨initial_priv sd, init_ports_variant hv ifp, hs, ?_, ?_, ?_⟩
  · have hlen := hi.1
    rw [hs] at hlen
    exact hlen
  · intro i hi2
    simp only [variants, phy_gmii_sel_id_table, List.map_cons, List.map_nil, List.mem_cons,
      List.mem_singleton, List.not_mem_nil, or_false] at hv
    rcases hv with rfl | rfl | rfl | rfl <;>
    · have hi3 : i < 2 := hi2
      interval_cases i <;> exact ⟨_, rfl, rfl⟩
  · intro k hk1 hk2 phy_id0 cnt clk hcnt
    rw [← hs] at hv hk2 hcnt
    obtain ⟨priv1, h, -, -⟩ := xlate_ok hv hi phy_id0 cnt k clk hk1 hk2 hcnt
    exact ⟨priv1, h⟩

theorem init_ports_dense_ids_witness :
    ∃ priv, phy_gmii_sel_init_ports true ⟨phy_gmii_sel_soc_dm814, none⟩ = some (0, priv) ∧
      priv.soc_data = phy_gmii_sel_soc_dm814 ∧
      priv.if_phys.map List.length = some phy_gmii_sel_soc_dm814.num_ports ∧
      (∀ i, i < phy_gmii_sel_soc_dm814.num_ports →
        ∃ row, phy_gmii_sel_soc_dm814.regfields[i]? = some row ∧
          priv.if_phys.bind (fun l => l[i]?) = some ⟨i + 1, 0, 0, row⟩) ∧
      (∀ k, 1 ≤ k → k ≤ phy_gmii_sel_soc_dm814.num_ports → ∀ phy_id0 cnt clk,
        required_args phy_gmii_sel_soc_dm814 ≤ cnt →
        ∃ priv1, phy_gmii_sel_of_xlate (some priv) phy_id0 ⟨cnt, k, clk⟩
          = some ⟨0, some priv1, k⟩) :=
  init_ports_dense_ids ⟨phy_gmii_sel_soc_dm814, none⟩ (by decide)

/-! ## Frame of the mode selection -/

/-- The port contexts after replacing entry `id - 1` of the port array. -/
theorem port_ctx_set (sd : phy_gmii_sel_soc_data) {l : List phy_gmii_sel_phy_priv}
    {id : Nat} (h1 : 1 ≤ id) (hlt : id - 1 < l.length) (e1 : phy_gmii_sel_phy_priv) :
    port_ctx ⟨sd, some (l.set (id - 1) e1)⟩ id = e1 ∧
    ∀ j, j ≠ id → port_ctx ⟨sd, some (l.set (id - 1) e1)⟩ j = port_ctx ⟨sd, some l⟩ j := by
  have hid : id ≠ 0 := by omega
  refine ⟨by simp [port_ctx, hid, List.getElem?_set, hlt], ?_⟩
  intro j hj
  by_cases hj0 : j = 0
  · simp [port_ctx, hj0]
  · have hne : id - 1 ≠ j - 1 := by omega
    simp [port_ctx, hj0, List.getElem?_set, hne]

/-- C15: on every variant, port and supported submode, whatever the register
map returns, after `phy_gmii_sel_mode` the recorded submode of the addressed
port is the requested one, its id, regfields and `rmii_clock_external` are
unchanged and every other port context is unchanged; the submode is recorded
even when a write fails. -/
theorem submode_recorded {σ : Type} (K : PhyEnums) (rm : Regmap σ)
    (priv : phy_gmii_sel_priv) (hv : priv.soc_data ∈ variants)
    (hinit : ports_initialised priv)
    (id : Nat) (h1 : 1 ≤ id) (h2 : id ≤ priv.soc_data.num_ports)
    (submode : Int) (hs : submode ∈ K.supported) (bus : Bus σ) :
    ∃ res, phy_gmii_sel_mode K rm priv bus id K.PHY_MODE_ETHERNET submode = some res ∧
      res.priv.soc_data = priv.soc_data ∧
      (port_ctx res.priv id).phy_if_mode = submode ∧
      (port_ctx res.priv id).id = (port_ctx priv id).id ∧
      (port_ctx res.priv id).regfields = (port_ctx priv id).regfields ∧
      (port_ctx res.priv id).rmii_clock_external = (port_ctx priv id).rmii_clock_external ∧
      ∀ j, j ≠ id → port_ctx res.priv j = port_ctx priv j := by
  obtain ⟨l, e, f0, f1, f2, hl, he, hrow, hp, -⟩ := port_row hv hinit h1 h2
  obtain ⟨code, flag, ht⟩ := table_of_supported K hs
  obtain ⟨r, hr, -⟩ := writes_subset rm priv.soc_data.features f0 f1 f2
    e.rmii_clock_external code flag bus
  have hlt : id - 1 < l.length := by
    rcases Nat.lt_or_ge (id - 1) l.length with h | h
    · exact h
    · rw [List.getElem?_eq_none h] at he
      cases he
  obtain ⟨hset, hother⟩ := port_ctx_set priv.soc_data h1 hlt
    ⟨e.id, e.rmii_clock_external, submode, e.regfields⟩
  have hpriv : (⟨priv.soc_data, some l⟩ : phy_gmii_sel_priv) = priv := by
    obtain ⟨sd, ifp⟩ := priv
    simp only at hl
    rw [hl]
  rw [hpriv] at hother
  rw [← hrow] at hr
  rw [mode_eval K rm hl h1 he ht, hr]
  refine ⟨_, rfl, rfl, ?_, ?_, ?_, ?_, hother⟩
  · simp [hset]
  · simp [hset, hp]
  · simp [hset, hp]
  · simp [hset, hp]

theorem submode_recorded_witness :
    ∃ res, phy_gmii_sel_mode sampleEnums (failingRegmap 0 (-5))
        (initial_priv phy_gmii_sel_soc_am33xx) (Bus.fresh 0) 2 sampleEnums.PHY_MODE_ETHERNET
        sampleEnums.PHY_INTERFACE_MODE_RMII = some res ∧
      res.priv.soc_data = (initial_priv phy_gmii_sel_soc_am33xx).soc_data ∧
      (port_ctx res.priv 2).phy_if_mode = sampleEnums.PHY_INTERFACE_MODE_RMII ∧
      (port_ctx res.priv 2).id = (port_ctx (initial_priv phy_gmii_sel_soc_am33xx) 2).id ∧
      (port_ctx res.priv 2).regfields
        = (port_ctx (initial_priv phy_gmii_sel_soc_am33xx) 2).regfields ∧
      (port_ctx res.priv 2).rmii_clock_external
        = (port_ctx (initial_priv phy_gmii_sel_soc_am33xx) 2).rmii_clock_external ∧
      ∀ j, j ≠ 2 → port_ctx res.priv j = port_ctx (initial_priv phy_gmii_sel_soc_am33xx) j :=
  submode_recorded sampleEnums (failingRegmap 0 (-5)) (initial_priv phy_gmii_sel_soc_am33xx)
    (by decide) (by decide) 2 (by decide) (by decide) sampleEnums.PHY_INTERFACE_MODE_RMII
    (by decide) (Bus.fresh 0)

/-- C19: for every submode, the six supported ones included,
`phy_gmii_sel_mode` called with a PHY mode other than `PHY_MODE_ETHERNET`
returns `-EINVAL`, issues no register write and leaves the instance with every
port context unchanged. -/
theorem other_phy_mode_rejected {σ : Type} (K : PhyEnums) (rm : Regmap σ)
    (priv : phy_gmii_sel_priv) (bus : Bus σ) (id : Nat) (mode submode : Int)
    (hm : mode ≠ K.PHY_MODE_ETHERNET) :
    ∃ res, phy_gmii_sel_mode K rm priv bus id mode submode = some res ∧
      res.ret = -EINVAL ∧ res.bus.st = bus.st ∧ res.bus.log = bus.log ∧ res.priv = priv := by
  refine ⟨⟨-EINVAL, priv, bus⟩, ?_, rfl, rfl, rfl, rfl⟩
  simp [phy_gmii_sel_mode, hm]

theorem other_phy_mode_rejected_witness :
    ∃ res, phy_gmii_sel_mode sampleEnums okRegmap (initial_priv phy_gmii_sel_soc_am33xx)
        (Bus.fresh ()) 1 0 sampleEnums.PHY_INTERFACE_MODE_RGMII = some res ∧
      res.ret = -EINVAL ∧ res.bus.st = (Bus.fresh ()).st ∧ res.bus.log = (Bus.fresh ()).log ∧
      res.priv = initial_priv phy_gmii_sel_soc_am33xx :=
  other_phy_mode_rejected sampleEnums okRegmap (initial_priv phy_gmii_sel_soc_am33xx)
    (Bus.fresh ()) 1 0 sampleEnums.PHY_INTERFACE_MODE_RGMII (by decide)

/-! ## Probe -/

/-- C16, the failing input: on the am33xx variant with a valid register map
and a failing port-array allocation, `phy_gmii_sel_init_ports` returns
`-ENOMEM`, which is not 0, and `phy_gmii_sel_probe` returns 0 all the same,
leaving the instance without port array. -/
theorem probe_swallows_init_failure :
    phy_gmii_sel_init_ports false ⟨phy_gmii_sel_soc_am33xx, none⟩
      = some (-ENOMEM, ⟨phy_gmii_sel_soc_am33xx, none⟩) ∧
    -ENOMEM ≠ 0 ∧
    phy_gmii_sel_probe ⟨⟨0, 0, []⟩, none⟩ phy_gmii_sel_soc_am33xx none false
      = some (0, ⟨phy_gmii_sel_soc_am33xx, none⟩) := by
  decide

/-- The error paths of `phy_gmii_sel_probe` in general: a failing register-map
lookup is returned, a failing port initialisation is not. -/
theorem probe_return_values (priv0 : phy_gmii_sel_priv) (data : phy_gmii_sel_soc_data)
    (e : Int) (alloc_ok : Bool) :
    phy_gmii_sel_probe priv0 data (some e) alloc_ok = some (e, ⟨data, priv0.if_phys⟩) ∧
    phy_gmii_sel_probe priv0 data none false = some (0, ⟨data, priv0.if_phys⟩) := by
  constructor <;> rfl

/-! ## Values and masks -/

/-- Every write of `spec_writes` is the write of one of the three fields. -/
theorem spec_writes_mem {features : Nat} {f0 f1 f2 : phy_gmii_sel_reg_field} {code : Nat}
    {flag clk : Int} {w : RegWrite} (h : w ∈ spec_writes features f0 f1 f2 code flag clk) :
    w = ⟨f0.reg, f0.mask, (code <<< f0.shift) % 2 ^ 32⟩ ∨
    (features &&& BIT 1 ≠ 0 ∧ w = ⟨f1.reg, f1.mask, shl32 flag f1.shift⟩) ∨
    (features &&& BIT 2 ≠ 0 ∧ w = ⟨f2.reg, f2.mask, shl32 clk f2.shift⟩) := by
  simp only [spec_writes, List.mem_append, List.mem_singleton, PHY_GMII_SEL_RGMII_ID_MODE,
    PHY_GMII_SEL_RMII_IO_CLK_EN] at h
  rcases h with (h | h) | h
  · exact Or.inl h
  · split_ifs at h with hA
    · exact Or.inr (Or.inl ⟨hA, List.mem_singleton.mp h⟩)
    · cases h
  · split_ifs at h with hB
    · exact Or.inr (Or.inr ⟨hB, List.mem_singleton.mp h⟩)
    · cases h

/-- C17 as stated fails: on the am33xx variant `phy_gmii_sel_of_xlate` stores
the second argument 2 as the clock flag of port 1, and `phy_gmii_sel_mode`
then issues `update_bits(0x650, 0x40, 0x80)`, whose value has a bit outside
the mask. -/
theorem clock_value_outside_mask :
    ∃ priv1 res,
      phy_gmii_sel_of_xlate (some (initial_priv phy_gmii_sel_soc_am33xx)) 0 ⟨2, 1, 2⟩
        = some ⟨0, some priv1, 1⟩ ∧
      phy_gmii_sel_mode sampleEnums okRegmap priv1 (Bus.fresh ()) 1
        sampleEnums.PHY_MODE_ETHERNET sampleEnums.PHY_INTERFACE_MODE_RMII = some res ∧
      (⟨0x650, 0x40, 0x80⟩ : RegWrite) ∈ res.bus.writes ∧
      0x80 &&& (0xFFFFFFFF ^^^ 0x40) ≠ 0 := by
  refine ⟨_, _, rfl, rfl, ?_, ?_⟩ <;> decide

/-- The RMII_IO_CLK_EN write of a port whose row is `f0, f1, f2`. -/
theorem rmii_clk_write_eq {priv : phy_gmii_sel_priv} {l : List phy_gmii_sel_phy_priv}
    {e : phy_gmii_sel_phy_priv} (hl : priv.if_phys = some l) {id : Nat} (h1 : 1 ≤ id)
    (he : l[id - 1]? = some e) {f0 f1 f2 : phy_gmii_sel_reg_field}
    (hrow : e.regfields = [f0, f1, f2]) :
    rmii_clk_write priv id = ⟨f2.reg, f2.mask, shl32 e.rmii_clock_external f2.shift⟩ := by
  simp [rmii_clk_write, port_field_eq hl h1 he, port_ctx_eq hl h1 he, hrow,
    PHY_GMII_SEL_RMII_IO_CLK_EN]

/-- C17, amended: on every variant, port and supported submode, for every
stored clock value and whatever the register map returns, every write issued
by `phy_gmii_sel_mode` other than the RMII_IO_CLK_EN write carries a value
inside its mask (value AND NOT mask = 0 in 32 bits); when the stored clock
value of the port is 0 or 1 the RMII_IO_CLK_EN write does so too, that is,
every write issued does. -/
theorem write_values_inside_mask {σ : Type} (K : PhyEnums) (rm : Regmap σ)
    (priv : phy_gmii_sel_priv) (hv : priv.soc_data ∈ variants)
    (hinit : ports_initialised priv)
    (id : Nat) (h1 : 1 ≤ id) (h2 : id ≤ priv.soc_data.num_ports)
    (submode : Int) (hs : submode ∈ K.supported) (s : σ) :
    ∃ res, phy_gmii_sel_mode K rm priv (Bus.fresh s) id K.PHY_MODE_ETHERNET submode = some res ∧
      (∀ w ∈ res.bus.writes,
        w = rmii_clk_write priv id ∨ w.val &&& (0xFFFFFFFF ^^^ w.mask) = 0) ∧
      ((port_ctx priv id).rmii_clock_external = 0 ∨
          (port_ctx priv id).rmii_clock_external = 1 →
        ∀ w ∈ res.bus.writes, w.val &&& (0xFFFFFFFF ^^^ w.mask) = 0) := by
  obtain ⟨l, e, row, hl, he, -, hrow, hsoc, -⟩ := ctx_of_initialised hinit h1 h2
  obtain ⟨code, flag, ht⟩ := table_of_supported K hs
  obtain ⟨hc, hf⟩ := table_bounds K ht
  rw [port_ctx_eq hl h1 he]
  rcases variant_row hv (by omega) hsoc with h | h | h | h | h | h <;>
  · obtain ⟨hs1, -, hr⟩ := h
    subst hr
    have hclkw := rmii_clk_write_eq hl h1 he hrow
    obtain ⟨r, hr1, hsub⟩ := writes_subset rm priv.soc_data.features _ _ _
      e.rmii_clock_external code flag (Bus.fresh s)
    rw [mode_eval K rm hl h1 he ht, hrow, hr1]
    have hothers : ∀ w ∈ r.2.writes,
        w = rmii_clk_write priv id ∨ w.val &&& (0xFFFFFFFF ^^^ w.mask) = 0 := by
      intro w hw
      have hmem := hsub w hw
      simp only [Bus.writes, Bus.fresh, List.map_nil, List.nil_append] at hmem
      rcases spec_writes_mem hmem with rfl | ⟨hA, rfl⟩ | ⟨-, rfl⟩
      · right
        interval_cases code <;> decide
      · right
        first
          | (exfalso; rw [hs1] at hA; revert hA; decide)
          | (interval_cases flag <;> decide)
      · left
        exact hclkw.symm
    refine ⟨_, rfl, hothers, ?_⟩
    intro hclk w hw
    have hmem := hsub w hw
    simp only [Bus.writes, Bus.fresh, List.map_nil, List.nil_append] at hmem
    rcases spec_writes_mem hmem with rfl | ⟨hA, rfl⟩ | ⟨hB, rfl⟩
    · interval_cases code <;> decide
    · first
        | (exfalso; rw [hs1] at hA; revert hA; decide)
        | (interval_cases flag <;> decide)
    · first
        | (exfalso; rw [hs1] at hB; revert hB; decide)
        | (rcases hclk with hz | hz <;> rw [hz] <;> decide)

theorem write_values_inside_mask_witness :
    ∃ res, phy_gmii_sel_mode sampleEnums okRegmap (initial_priv phy_gmii_sel_soc_am33xx)
        (Bus.fresh ()) 1 sampleEnums.PHY_MODE_ETHERNET sampleEnums.PHY_INTERFACE_MODE_RGMII_ID
        = some res ∧
      (∀ w ∈ res.bus.writes,
        w = rmii_clk_write (initial_priv phy_gmii_sel_soc_am33xx) 1 ∨
          w.val &&& (0xFFFFFFFF ^^^ w.mask) = 0) ∧
      ((port_ctx (initial_priv phy_gmii_sel_soc_am33xx) 1).rmii_clock_external = 0 ∨
          (port_ctx (initial_priv phy_gmii_sel_soc_am33xx) 1).rmii_clock_external = 1 →
        ∀ w ∈ res.bus.writes, w.val &&& (0xFFFFFFFF ^^^ w.mask) = 0) :=
  write_values_inside_mask sampleEnums okRegmap (initial_priv phy_gmii_sel_soc_am33xx)
    (by decide) (by decide) 1 (by decide) (by decide)
    sampleEnums.PHY_INTERFACE_MODE_RGMII_ID (by decide) ()

/-! ## Port isolation -/

/-- A bit below 32 that no write of the sequence covers keeps its value
through a sequence of read-modify-writes. -/
theorem rmw_untouched (ws : List RegWrite) (regs : Nat → Nat) (a i : Nat) (hi : i < 32)
    (h : ∀ w ∈ ws, w.reg = a → w.mask.testBit i = false) :
    (ws.foldl rmwRegmap.next regs a).testBit i = (regs a).testBit i := by
  induction ws generalizing regs with
  | nil => rfl
  | cons w ws ih =>
    rw [List.foldl_cons, ih _ (fun v hv => h v (List.mem_cons_of_mem _ hv))]
    by_cases ha : a = w.reg
    · have hm : w.mask.testBit i = false := h w (List.mem_cons_self _ _) ha.symm
      have hones : (0xFFFFFFFF : Nat).testBit i = true := by
        have h32 : (0xFFFFFFFF : Nat) = 2 ^ 32 - 1 := by norm_num
        rw [h32, Nat.testBit_two_pow_sub_one]
        simpa using hi
      simp [Regmap.next, rmwRegmap, ha, hm, hones]
    · simp [Regmap.next, rmwRegmap, ha]

/-- A set bit of a 32-bit value has index below 32. -/
theorem bit_index_lt {m i : Nat} (hm : m < 2 ^ 32) (hb : m.testBit i = true) : i < 32 := by
  by_contra hge
  have hle : 2 ^ 32 ≤ 2 ^ i := Nat.pow_le_pow_right (by norm_num) (by omega)
  have hf : m.testBit i = false := Nat.testBit_lt_two_pow (by omega)
  rw [hf] at hb
  cases hb

/-- Disjoint masks have no set bit in common. -/
theorem disjoint_bit {m1 m2 i : Nat} (hd : m1 &&& m2 = 0) (hb : m1.testBit i = true) :
    m2.testBit i = false := by
  have h := Nat.testBit_and m1 m2 i
  rw [hd, Nat.zero_testBit, hb] at h
  simpa using h.symm

/-- The fields of a port of an initialised instance are those of its row of
the variant table. -/
theorem port_field_table {priv : phy_gmii_sel_priv} (hinit : ports_initialised priv)
    {id : Nat} (h1 : 1 ≤ id) (h2 : id ≤ priv.soc_data.num_ports) (kind : Nat) :
    port_field priv id kind = table_field priv.soc_data (id - 1) kind := by
  obtain ⟨l, e, row, hl, he, -, hrow, hsoc, -⟩ := ctx_of_initialised hinit h1 h2
  rw [port_field_eq hl h1 he, hrow]
  simp [table_field, hsoc]

/-- In every table the fields of different ports have disjoint 32-bit masks. -/
theorem table_disjoint :
    ∀ soc ∈ variants, ∀ i, i < 2 → ∀ j, j < 2 → i ≠ j → ∀ k, k < 3 → ∀ n, n < 3 →
      (table_field soc j n).mask &&& (table_field soc i k).mask = 0 ∧
      (table_field soc j n).mask < 2 ^ 32 := by
  decide

/-- With the read-modify-write register map, the registers after
`phy_gmii_sel_mode` (any PHY mode, any submode) are reached by a sequence of
writes to fields of the addressed port. -/
theorem mode_rmw_state (K : PhyEnums) {priv : phy_gmii_sel_priv}
    (hv : priv.soc_data ∈ variants) (hinit : ports_initialised priv)
    {id : Nat} (h1 : 1 ≤ id) (h2 : id ≤ priv.soc_data.num_ports)
    (mode submode : Int) (regs : Nat → Nat) :
    ∃ (res : ModeResult (Nat → Nat)) (ws : List RegWrite),
      phy_gmii_sel_mode K rmwRegmap priv (Bus.fresh regs) id mode submode = some res ∧
      res.bus.st = ws.foldl rmwRegmap.next regs ∧
      ∀ w ∈ ws, ∃ kind, kind < 3 ∧ w.reg = (port_field priv id kind).reg ∧
        w.mask = (port_field priv id kind).mask := by
  obtain ⟨l, e, f0, f1, f2, hl, he, hrow, -, hp0, hp1, hp2, -⟩ := port_row hv hinit h1 h2
  have hid : id ≠ 0 := by omega
  by_cases hm : mode = K.PHY_MODE_ETHERNET
  · by_cases hsup : submode ∈ K.supported
    · obtain ⟨code, flag, ht⟩ := table_of_supported K hsup
      obtain ⟨res, hres, -, -, hst⟩ := mode_all_ok_state K rmwRegmap (fun _ _ _ _ => rfl)
        hl h1 he hrow ht (Bus.fresh regs)
      refine ⟨res, _, hm ▸ hres, hst, ?_⟩
      intro w hw
      rcases spec_writes_mem hw with rfl | ⟨-, rfl⟩ | ⟨-, rfl⟩
      · exact ⟨0, by omega, by rw [← hp0]; rfl, by rw [← hp0]; rfl⟩
      · exact ⟨1, by omega, by rw [← hp1]; rfl, by rw [← hp1]; rfl⟩
      · exact ⟨2, by omega, by rw [← hp2]; rfl, by rw [← hp2]; rfl⟩
    · refine ⟨⟨-EINVAL, priv, Bus.fresh regs⟩, [], ?_, rfl, ?_⟩
      · simp [phy_gmii_sel_mode, hl, he, hid, hm, switch_of_unsupported K hsup]
      · intro w hw
        cases hw
  · refine ⟨⟨-EINVAL, priv, Bus.fresh regs⟩, [], ?_, rfl, ?_⟩
    · simp [phy_gmii_sel_mode, hm]
    · intro w hw
      cases hw

/-- C18: port isolation.  In the table of every variant the masks of the
fields that are not the sentinel are pairwise disjoint; and with `update_bits`
the masked read-modify-write, `phy_gmii_sel_mode` on one port (any PHY mode,
submode, stored clock value and initial register contents) leaves unchanged
every register bit outside the PORT_MODE, RGMII_ID_MODE and RMII_IO_CLK_EN
masks of that port, in particular all bits of the fields of the other port. -/
theorem port_isolation (K : PhyEnums) (priv : phy_gmii_sel_priv)
    (hv : priv.soc_data ∈ variants) (hinit : ports_initialised priv)
    (id : Nat) (h1 : 1 ≤ id) (h2 : id ≤ priv.soc_data.num_ports)
    (mode submode : Int) (regs : Nat → Nat) :
    (present_masks priv.soc_data).Pairwise (fun m1 m2 => m1 &&& m2 = 0) ∧
    ∃ res, phy_gmii_sel_mode K rmwRegmap priv (Bus.fresh regs) id mode submode = some res ∧
      (∀ a i, i < 32 →
        (∀ kind, kind < PHY_GMII_SEL_LAST → (port_field priv id kind).reg = a →
          (port_field priv id kind).mask.testBit i = false) →
        (res.bus.st a).testBit i = (regs a).testBit i) ∧
      (∀ j, 1 ≤ j → j ≤ priv.soc_data.num_ports → j ≠ id →
        ∀ kind, kind < PHY_GMII_SEL_LAST →
          res.bus.st (port_field priv j kind).reg &&& (port_field priv j kind).mask
            = regs (port_field priv j kind).reg &&& (port_field priv j kind).mask) := by
  have hpair : (present_masks priv.soc_data).Pairwise (fun m1 m2 => m1 &&& m2 = 0) := by
    have hall : ∀ soc ∈ variants, (present_masks soc).Pairwise (fun m1 m2 => m1 &&& m2 = 0) := by
      decide
    exact hall _ hv
  obtain ⟨hn, -⟩ := initialised_two hv hinit
  obtain ⟨res, ws, hres, hst, hws⟩ := mode_rmw_state K hv hinit h1 h2 mode submode regs
  have hA : ∀ a i, i < 32 →
      (∀ kind, kind < PHY_GMII_SEL_LAST → (port_field priv id kind).reg = a →
        (port_field priv id kind).mask.testBit i = false) →
      (res.bus.st a).testBit i = (regs a).testBit i := by
    intro a i hi hown
    rw [hst]
    apply rmw_untouched ws regs a i hi
    intro w hw hreg
    obtain ⟨kind, hk, hr, hmk⟩ := hws w hw
    rw [hmk]
    exact hown kind hk (by rw [← hr, hreg])
  refine ⟨hpair, res, hres, hA, ?_⟩
  intro j hj1 hj2 hne kind hk
  rw [port_field_table hinit hj1 hj2 kind]
  apply Nat.eq_of_testBit_eq
  intro i
  rw [Nat.testBit_and, Nat.testBit_and]
  cases hb : (table_field priv.soc_data (j - 1) kind).mask.testBit i with
  | false => simp
  | true =>
    have hdis := fun k (hk3 : k < 3) =>
      table_disjoint priv.soc_data hv (id - 1) (by omega) (j - 1) (by omega) (by omega)
        k hk3 kind hk
    have hi : i < 32 := bit_index_lt (hdis 0 (by omega)).2 hb
    have hsame := hA (table_field priv.soc_data (j - 1) kind).reg i hi (by
      intro k hk3 _
      rw [port_field_table hinit h1 h2 k]
      exact disjoint_bit (hdis k hk3).1 hb)
    rw [hsame]

theorem port_isolation_witness :
    (present_masks (initial_priv phy_gmii_sel_soc_am33xx).soc_data).Pairwise
      (fun m1 m2 => m1 &&& m2 = 0) ∧
    ∃ res, phy_gmii_sel_mode sampleEnums rmwRegmap (initial_priv phy_gmii_sel_soc_am33xx)
        (Bus.fresh (fun _ => 0xFFFFFFFF)) 1 sampleEnums.PHY_MODE_ETHERNET
        sampleEnums.PHY_INTERFACE_MODE_MII = some res ∧
      (∀ a i, i < 32 →
        (∀ kind, kind < PHY_GMII_SEL_LAST →
          (port_field (initial_priv phy_gmii_sel_soc_am33xx) 1 kind).reg = a →
          (port_field (initial_priv phy_gmii_sel_soc_am33xx) 1 kind).mask.testBit i = false) →
        (res.bus.st a).testBit i = ((fun _ => 0xFFFFFFFF) a : Nat).testBit i) ∧
      (∀ j, 1 ≤ j → j ≤ (initial_priv phy_gmii_sel_soc_am33xx).soc_data.num_ports → j ≠ 1 →
        ∀ kind, kind < PHY_GMII_SEL_LAST →
          res.bus.st (port_field (initial_priv phy_gmii_sel_soc_am33xx) j kind).reg
              &&& (port_field (initial_priv phy_gmii_sel_soc_am33xx) j kind).mask
            = (fun _ => 0xFFFFFFFF) (port_field (initial_priv phy_gmii_sel_soc_am33xx) j kind).reg
              &&& (port_field (initial_priv phy_gmii_sel_soc_am33xx) j kind).mask) :=
  port_isolation sampleEnums (initial_priv phy_gmii_sel_soc_am33xx) (by decide) (by decide)
    1 (by decide) (by decide) sampleEnums.PHY_MODE_ETHERNET
    sampleEnums.PHY_INTERFACE_MODE_MII (fun _ => 0xFFFFFFFF)

/-! ## Bind, then apply -/

/-- Whenever `phy_gmii_sel_of_xlate` answers 0 on an initialised instance
without having read outside the port array, the handle id lies in
`[1, num_ports]`, the instance stays initialised on the same variant, and the
context `if_phys[id - 1]` has that id and row `id - 1` of the variant table. -/
theorem xlate_success_in_range (priv : phy_gmii_sel_priv) (hv : priv.soc_data ∈ variants)
    (hinit : ports_initialised priv) (phy_id0 : Nat) (args : ofnode_phandle_args)
    (res : XlateResult)
    (h : phy_gmii_sel_of_xlate (some priv) phy_id0 args = some res) (hret : res.ret = 0) :
    1 ≤ res.phy_id ∧ res.phy_id ≤ priv.soc_data.num_ports ∧
    ∃ priv1, res.priv = some priv1 ∧ priv1.soc_data = priv.soc_data ∧
      ports_initialised priv1 ∧
      (port_ctx priv1 res.phy_id).id = res.phy_id ∧
      priv.soc_data.regfields[res.phy_id - 1]? = some (port_ctx priv1 res.phy_id).regfields := by
  obtain ⟨hn, x, y, hl, hx, hy⟩ := initialised_two hv hinit
  obtain ⟨sd, ifp⟩ := priv
  simp only at hl hn
  subst hl
  have hrows := hinit.2
  have hr0 := (hrows 0 (by simp only; omega)).2
  have hr1 := (hrows 1 (by simp only; omega)).2
  simp only [Option.some_bind, List.getElem?_cons_zero, List.getElem?_cons_succ,
    Option.map_some'] at hr0 hr1
  unfold phy_gmii_sel_of_xlate at h
  simp only [hn] at h
  generalize toS32 args.arg0 = p at h
  by_cases hc1 : args.args_count < 1
  · rw [if_pos hc1] at h
    cases h
    simp [EINVAL] at hret
  rw [if_neg hc1] at h
  by_cases hc2 : sd.features &&& BIT PHY_GMII_SEL_RMII_IO_CLK_EN ≠ 0 ∧ args.args_count < 2
  · rw [if_pos hc2] at h
    cases h
    simp [EINVAL] at hret
  rw [if_neg hc2] at h
  by_cases hc3 : toU32 p > 2
  · rw [if_pos hc3] at h
    cases h
    simp [EINVAL] at hret
  rw [if_neg hc3] at h
  by_cases hc4 : p - 1 < 0
  · rw [if_pos hc4] at h
    cases h
  rw [if_neg hc4] at h
  have hp : (p - 1).toNat = 0 ∨ (p - 1).toNat = 1 ∨ 2 ≤ (p - 1).toNat := by omega
  rcases hp with hq | hq | hq
  · rw [hq] at h
    have hp1 : p = 1 := by omega
    subst hp1
    by_cases hF : sd.features &&& BIT PHY_GMII_SEL_RMII_IO_CLK_EN = 0
    · simp [hF, hx, toU32] at h
      subst h
      refine ⟨by simp [hx], by simp [hx, hn], _, rfl, rfl, hinit, ?_, ?_⟩
      · simp [port_ctx, hx]
      · simp [port_ctx, hx, hr0]
    · simp [hF, hx, toU32] at h
      subst h
      refine ⟨by simp, by simp [hn], _, rfl, rfl,
        initialised_of_same_rows hinit ⟨hx.symm, rfl⟩ ⟨rfl, rfl⟩, ?_, ?_⟩
      · simp [port_ctx]
      · simp [port_ctx, hr0]
  · rw [hq] at h
    have hp2 : p = 2 := by omega
    subst hp2
    by_cases hF : sd.features &&& BIT PHY_GMII_SEL_RMII_IO_CLK_EN = 0
    · simp [hF, hy, toU32] at h
      subst h
      refine ⟨by simp [hy], by simp [hy, hn], _, rfl, rfl, hinit, ?_, ?_⟩
      · simp [port_ctx, hy]
      · simp [port_ctx, hy, hr1]
    · simp [hF, hy, toU32] at h
      subst h
      refine ⟨by simp, by simp [hn], _, rfl, rfl,
        initialised_of_same_rows hinit ⟨rfl, rfl⟩ ⟨hy.symm, rfl⟩, ?_, ?_⟩
      · simp [port_ctx]
      · simp [port_ctx, hr1]
  · have hnone : ([x, y] : List phy_gmii_sel_phy_priv)[(p - 1).toNat]? = none := by
      apply List.getElem?_eq_none
      simpa using hq
    rw [hnone] at h
    cases h

/-- C20, the failing input: on an initialised dra7 instance a bind request
for port index 0 has no lower-bound test in its way and reads `if_phys[-1]`,
outside the port array, so the bind itself is not in bounds and what it
answers is not determined by the instance; a handle id of 0, which it yields
when the word read there is 0, makes `phy_gmii_sel_mode` index outside the
port array as well. -/
theorem bind_index_zero_not_in_bounds :
    phy_gmii_sel_of_xlate (some (initial_priv phy_gmii_sel_soc_dra7)) 0 ⟨1, 0, 0⟩ = none ∧
    (phy_gmii_sel_mode sampleEnums okRegmap (initial_priv phy_gmii_sel_soc_dra7)
      (Bus.fresh ()) 0 sampleEnums.PHY_MODE_ETHERNET
      sampleEnums.PHY_INTERFACE_MODE_MII).isNone = true := by
  exact ⟨by decide, rfl⟩

end PhyGmiiSel
